import Mathlib

/-!
# bun-adapter: the policy-rule codec, the predicate builders and the filtered mutations

A shallow embedding of `adapter.go` (package `bunadapter`).  A stored rule is
a `CasbinRule`; the durable table is a list of rows in storage order; the
storage engine and the policy-line parser of the policy engine are external
collaborators and appear as explicit models or parameters.
-/

namespace BunAdapter

/-! ## Data model -/

/-- The durable row `CasbinRule`: autoincrement identity, type tag, six fields.
The defaults are Go's zero values. -/
structure CasbinRule where
  Id : Int := 0
  Ptype : String := ""
  V0 : String := ""
  V1 : String := ""
  V2 : String := ""
  V3 : String := ""
  V4 : String := ""
  V5 : String := ""
deriving DecidableEq, Repr

/-- The six positional fields of a row, in column order. -/
def CasbinRule.fields (line : CasbinRule) : List String :=
  [line.V0, line.V1, line.V2, line.V3, line.V4, line.V5]

/-- The seven constrained positions of a row: type tag, then the six fields.
This is the tuple the uniqueness index `casbin_uidx` covers. -/
def CasbinRule.key (line : CasbinRule) : List String :=
  line.Ptype :: line.fields

/-- Go's `strings.Join(elems, sep)`. -/
def stringsJoin : List String → String → String
  | [], _ => ""
  | [a], _ => a
  | a :: b :: rest, sep => a ++ sep ++ stringsJoin (b :: rest) sep

/-! ## Rule codec -/

/-- The method `(*Adapter).genPolicyLine`: each `rule[i]` is read under the guard
`l > i`, which is the bound the index needs. -/
def genPolicyLine (ptype : String) (rule : List String) : CasbinRule :=
  let line : CasbinRule := { Ptype := ptype }
  let line := if h : rule.length > 0 then { line with V0 := rule[0] } else line
  let line := if h : rule.length > 1 then { line with V1 := rule[1] } else line
  let line := if h : rule.length > 2 then { line with V2 := rule[2] } else line
  let line := if h : rule.length > 3 then { line with V3 := rule[3] } else line
  let line := if h : rule.length > 4 then { line with V4 := rule[4] } else line
  let line := if h : rule.length > 5 then { line with V5 := rule[5] } else line
  line

/-- The text `lineText` that `loadPolicyLine` builds from a row and hands to
`persist.LoadPolicyLine`. -/
def loadPolicyLineText (line : CasbinRule) : String :=
  let p := [line.Ptype, line.V0, line.V1, line.V2, line.V3, line.V4, line.V5]
  if line.V5 ≠ "" then stringsJoin p ", "
  else if line.V4 ≠ "" then stringsJoin (p.take 6) ", "
  else if line.V3 ≠ "" then stringsJoin (p.take 5) ", "
  else if line.V2 ≠ "" then stringsJoin (p.take 4) ", "
  else if line.V1 ≠ "" then stringsJoin (p.take 3) ", "
  else if line.V0 ≠ "" then stringsJoin (p.take 2) ", "
  else ""

/-- The function `loadPolicyLine`: the policy engine's `persist.LoadPolicyLine` is an
external collaborator, taken as the parameter `persistLoadPolicyLine` acting
on the policy model `M`; an error it reports is only printed. -/
def loadPolicyLine {M : Type} (persistLoadPolicyLine : String → M → M)
    (line : CasbinRule) (model : M) : M :=
  persistLoadPolicyLine (loadPolicyLineText line) model

/-! ## Predicate builder -/

/-- The function `genWhereCondition`: the exact-match clause and its bound arguments. -/
def genWhereCondition (line : CasbinRule) : String × List String :=
  let cond := "ptype = ? AND v0 = ? AND v1 = ? AND v2 = ? AND v3 = ? AND v4 = ? AND v5 = ?"
  let args := [line.Ptype, line.V0, line.V1, line.V2, line.V3, line.V4, line.V5]
  (cond, args)

/-- The table `fields` of `genFilteredWhereCondition`: column name and value
of each of the seven positions. -/
def filteredFields (line : CasbinRule) : List (String × String) :=
  [("ptype", line.Ptype), ("v0", line.V0), ("v1", line.V1), ("v2", line.V2),
   ("v3", line.V3), ("v4", line.V4), ("v5", line.V5)]

/-- The function `genFilteredWhereCondition`: the loop appends one `"col = ?"` (Go's
`fmt.Sprintf("%s = ?", col)`) and one argument per non-empty position. -/
def genFilteredWhereCondition (line : CasbinRule) : String × List String :=
  let acc := (filteredFields line).foldl
    (fun (acc : List String × List String) (f : String × String) =>
      if f.2 ≠ "" then (acc.1 ++ [f.1 ++ " = ?"], acc.2 ++ [f.2]) else acc)
    ([], [])
  (stringsJoin acc.1 " AND ", acc.2)

/-! ## Storage collaborator

The relational engine is outside the repository.  It is modelled as a list
of rows in storage order, with the fragment of SQL the adapter emits. -/

/-- Errors are carried as their message. -/
abbrev StorageError := String

/-- The durable table `casbin_rule`, rows in storage order. -/
abbrev Table := List CasbinRule

/-- The column a name denotes. -/
def column (name : String) : Option (CasbinRule → String) :=
  if name = "ptype" then some CasbinRule.Ptype
  else if name = "v0" then some CasbinRule.V0
  else if name = "v1" then some CasbinRule.V1
  else if name = "v2" then some CasbinRule.V2
  else if name = "v3" then some CasbinRule.V3
  else if name = "v4" then some CasbinRule.V4
  else if name = "v5" then some CasbinRule.V5
  else none

/-- Put a character in front of the first block of a split. -/
def consHead (c : Char) : List (List Char) → List (List Char)
  | [] => [[c]]
  | p :: ps => (c :: p) :: ps

/-- Split a clause at every `" AND "`. -/
def splitAnd : List Char → List (List Char)
  | [] => [[]]
  | ' ' :: 'A' :: 'N' :: 'D' :: ' ' :: tail => [] :: splitAnd tail
  | c :: rest => consHead c (splitAnd rest)

/-- One conjunct `col = ?` of a clause denotes its column. -/
def parseConjunct (c : List Char) : Option (CasbinRule → String) :=
  if c = "ptype = ?".data then some CasbinRule.Ptype
  else if c = "v0 = ?".data then some CasbinRule.V0
  else if c = "v1 = ?".data then some CasbinRule.V1
  else if c = "v2 = ?".data then some CasbinRule.V2
  else if c = "v3 = ?".data then some CasbinRule.V3
  else if c = "v4 = ?".data then some CasbinRule.V4
  else if c = "v5 = ?".data then some CasbinRule.V5
  else none

/-- The columns a clause constrains, in order; the empty clause is the empty
conjunction; `none` is a clause outside the fragment. -/
def parseWhere (clause : String) : Option (List (CasbinRule → String)) :=
  if clause = "" then some [] else (splitAnd clause.data).mapM parseConjunct

/-- A condition added to a query: `Where(clause, args...)`,
`Where("? = ?", bun.Ident(col), val)` and
`Where("? IN (?)", bun.Ident(col), bun.In(vals))`. -/
inductive WhereCond where
  | raw (clause : String) (args : List String)
  | identEq (col : String) (val : String)
  | identIn (col : String) (vals : List String)
deriving DecidableEq, Repr

/-- The predicate on rows a condition denotes; `none` when the statement is
malformed (unknown column, placeholders and arguments out of step). -/
def WhereCond.compile : WhereCond → Option (CasbinRule → Bool)
  | .raw clause args =>
    match parseWhere clause with
    | none => none
    | some cols =>
      if cols.length = args.length then
        some (fun row => (cols.zip args).all (fun ca => ca.1 row == ca.2))
      else none
  | .identEq col val =>
    match column col with
    | none => none
    | some c => some (fun row => c row == val)
  | .identIn col vals =>
    match column col with
    | none => none
    | some c => some (fun row => vals.contains (c row))

/-- The conditions of one query combine by conjunction. -/
def compileWhere : List WhereCond → Option (CasbinRule → Bool)
  | [] => some (fun _ => true)
  | w :: ws =>
    match w.compile, compileWhere ws with
    | some p, some q => some (fun row => p row && q row)
    | _, _ => none

/-- The error of a malformed statement. -/
def syntaxError : StorageError := "syntax error"

/-- The error of a violated uniqueness index `casbin_uidx`. -/
def uniqueError : StorageError := "UNIQUE constraint failed: casbin_uidx"

/-- A select with a where-part, `Scan`: the matching rows in storage order.
`fault` is a failure of the engine itself. -/
def selectRows (fault : Option StorageError) (conds : List WhereCond) (t : Table) :
    Except StorageError (List CasbinRule) :=
  match fault with
  | some e => .error e
  | none =>
    match compileWhere conds with
    | none => .error syntaxError
    | some p => .ok (t.filter p)

/-- A delete with a where-part. -/
def deleteWhere (fault : Option StorageError) (conds : List WhereCond) (t : Table) :
    Except StorageError Table :=
  match fault with
  | some e => .error e
  | none =>
    match compileWhere conds with
    | none => .error syntaxError
    | some p => .ok (t.filter (fun row => !p row))

/-- The delete of a slice of rows by primary key, `Model(&rows).WherePK()`. -/
def deleteByPK (fault : Option StorageError) (rows : List CasbinRule) (t : Table) :
    Except StorageError Table :=
  match fault with
  | some e => .error e
  | none => .ok (t.filter (fun row => !(rows.map CasbinRule.Id).contains row.Id))

/-- The next autoincrement identity: above every identity in the table. -/
def nextId (t : Table) : Int :=
  t.foldl (fun m row => max m row.Id) 0 + 1

/-- Identities handed out to inserted rows, from `n` upwards. -/
def assignIds : Int → List CasbinRule → List CasbinRule
  | _, [] => []
  | n, row :: rows => { row with Id := n } :: assignIds (n + 1) rows

/-- The insert of a slice of rows.  The adapter only inserts rows whose `Id`
is the zero value, so the engine assigns every identity; the statement fails
when the uniqueness index would be violated. -/
def insertRows (fault : Option StorageError) (rows : List CasbinRule) (t : Table) :
    Except StorageError Table :=
  match fault with
  | some e => .error e
  | none =>
    let t' := t ++ assignIds (nextId t) rows
    if (t'.map CasbinRule.key).Nodup then .ok t' else .error uniqueError

/-- An update with a where-part that sets the type tag and the six fields of
every matching row to those of `nRule`; identities stay. -/
def updateWhere (fault : Option StorageError) (nRule : CasbinRule)
    (conds : List WhereCond) (t : Table) : Except StorageError Table :=
  match fault with
  | some e => .error e
  | none =>
    match compileWhere conds with
    | none => .error syntaxError
    | some p =>
      let t' := t.map (fun row => if p row then { nRule with Id := row.Id } else row)
      if (t'.map CasbinRule.key).Nodup then .ok t' else .error uniqueError

/-- Failures of the transaction frame itself. -/
structure TxFaults where
  beginErr : Option StorageError := none
  commitErr : Option StorageError := none
deriving DecidableEq, Repr

/-- The call `db.RunInTx`: begin, run the body, roll back when it returns an error,
commit otherwise.  The body works on the table and also yields the final
value of the variables it captured (`init` when it never ran). -/
def runInTx {σ : Type} (f : TxFaults) (init : σ)
    (body : Table → σ × Except StorageError Table) (t : Table) :
    σ × Option StorageError × Table :=
  match f.beginErr with
  | some e => (init, some e, t)
  | none =>
    match body t with
    | (s, .error e) => (s, some e, t)
    | (s, .ok t') =>
      match f.commitErr with
      | some e => (s, some e, t)
      | none => (s, none, t')

/-! ## Adapter facade -/

/-- The adapter state that the operations read or write. -/
structure Adapter where
  isFilter : Bool := false
  tableName : String := ""
deriving DecidableEq, Repr

/-- The method `(*Adapter).IsFiltered`. -/
def Adapter.IsFiltered (a : Adapter) : Bool := a.isFilter

/-- The filter of a filtered load: a set of candidate values per position. -/
structure Filter where
  Ptype : List String := []
  V0 : List String := []
  V1 : List String := []
  V2 : List String := []
  V3 : List String := []
  V4 : List String := []
  V5 : List String := []
deriving DecidableEq, Repr

/-- The dynamic type of the `filter interface{}` argument: a `*Filter`, or
anything else. -/
inductive FilterArg where
  | ptr (f : Filter)
  | other
deriving DecidableEq, Repr

/-- The method `(*Adapter).RemovePolicy`: the returned error and the table
afterwards. -/
def RemovePolicy (fault : Option StorageError) (_sec ptype : String) (rule : List String)
    (t : Table) : Option StorageError × Table :=
  let line := genPolicyLine ptype rule
  let ca := genWhereCondition line
  match deleteWhere fault [.raw ca.1 ca.2] t with
  | .error e => (some e, t)
  | .ok t' => (none, t')

/-- The method `(*Adapter).UpdatePolicy`: the returned error and the table
afterwards. -/
def UpdatePolicy (fault : Option StorageError) (_sec ptype : String)
    (oldRule newRule : List String) (t : Table) : Option StorageError × Table :=
  let oRule := genPolicyLine ptype oldRule
  let nRule := genPolicyLine ptype newRule
  let ca := genWhereCondition oRule
  match updateWhere fault nRule [.raw ca.1 ca.2] t with
  | .error e => (some e, t)
  | .ok t' => (none, t')

/-- The table `fields` of `LoadFilteredPolicy`. -/
def filterFields (fv : Filter) : List (String × List String) :=
  [("ptype", fv.Ptype), ("v0", fv.V0), ("v1", fv.V1), ("v2", fv.V2),
   ("v3", fv.V3), ("v4", fv.V4), ("v5", fv.V5)]

/-- The where-part `LoadFilteredPolicy` builds: the loop with its `switch`
on the number of candidate values. -/
def filterConds (fv : Filter) : List WhereCond :=
  (filterFields fv).foldl
    (fun (query : List WhereCond) (f : String × List String) =>
      match f.2 with
      | [] => query
      | [v] => query ++ [WhereCond.identEq f.1 v]
      | _ :: _ :: _ => query ++ [WhereCond.identIn f.1 f.2])
    []

/-- The method `(*Adapter).LoadFilteredPolicy`: the adapter, the policy model and the
error afterwards. -/
def LoadFilteredPolicy {M : Type} (persistLoadPolicyLine : String → M → M)
    (fault : Option StorageError) (a : Adapter) (model : M) (filter : FilterArg)
    (t : Table) : Adapter × M × Option StorageError :=
  match filter with
  | .other => (a, model, some "invalid filter type")
  | .ptr filterValue =>
    match selectRows fault (filterConds filterValue) t with
    | .error e => (a, model, some e)
    | .ok lines =>
      ({ a with isFilter := true },
       lines.foldl (fun m line => loadPolicyLine persistLoadPolicyLine line m) model,
       none)

/-- Go's `int` on a 64-bit platform: the value an arithmetic result wraps to. -/
def wrapInt (x : Int) : Int := (x + 2 ^ 63) % 2 ^ 64 - 2 ^ 63

/-- A slice index `xs[i]`; `none` is the out-of-range panic. -/
def indexAt (xs : List String) (i : Int) : Option String :=
  if 0 ≤ i then xs[i.toNat]? else none

/-- The sparse rule `RemoveFilteredPolicy` builds before it queries; `none`
is an index out of range, which a guarded assignment passes on. -/
def removeFilteredLine (ptype : String) (fieldIndex : Int) (fieldValues : List String) :
    Option CasbinRule :=
  let line : CasbinRule := { Ptype := ptype }
  let idx := wrapInt (fieldIndex + fieldValues.length)
  (if fieldIndex ≤ 0 ∧ idx > 0 then
      (indexAt fieldValues (wrapInt (0 - fieldIndex))).map (fun v => { line with V0 := v })
    else some line).bind fun line =>
  (if fieldIndex ≤ 1 ∧ idx > 1 then
      (indexAt fieldValues (wrapInt (1 - fieldIndex))).map (fun v => { line with V1 := v })
    else some line).bind fun line =>
  (if fieldIndex ≤ 2 ∧ idx > 2 then
      (indexAt fieldValues (wrapInt (2 - fieldIndex))).map (fun v => { line with V2 := v })
    else some line).bind fun line =>
  (if fieldIndex ≤ 3 ∧ idx > 3 then
      (indexAt fieldValues (wrapInt (3 - fieldIndex))).map (fun v => { line with V3 := v })
    else some line).bind fun line =>
  (if fieldIndex ≤ 4 ∧ idx > 4 then
      (indexAt fieldValues (wrapInt (4 - fieldIndex))).map (fun v => { line with V4 := v })
    else some line).bind fun line =>
  (if fieldIndex ≤ 5 ∧ idx > 5 then
      (indexAt fieldValues (wrapInt (5 - fieldIndex))).map (fun v => { line with V5 := v })
    else some line).bind fun line =>
  some line

/-- The sparse rule `UpdateFilteredPolicies` builds before it queries. -/
def updateFilteredLine (ptype : String) (fieldIndex : Int) (fieldValues : List String) :
    Option CasbinRule :=
  let line : CasbinRule := { Ptype := ptype }
  (if fieldIndex ≤ 0 ∧ 0 < wrapInt (fieldIndex + fieldValues.length) then
      (indexAt fieldValues (wrapInt (0 - fieldIndex))).map (fun v => { line with V0 := v })
    else some line).bind fun line =>
  (if fieldIndex ≤ 1 ∧ 1 < wrapInt (fieldIndex + fieldValues.length) then
      (indexAt fieldValues (wrapInt (1 - fieldIndex))).map (fun v => { line with V1 := v })
    else some line).bind fun line =>
  (if fieldIndex ≤ 2 ∧ 2 < wrapInt (fieldIndex + fieldValues.length) then
      (indexAt fieldValues (wrapInt (2 - fieldIndex))).map (fun v => { line with V2 := v })
    else some line).bind fun line =>
  (if fieldIndex ≤ 3 ∧ 3 < wrapInt (fieldIndex + fieldValues.length) then
      (indexAt fieldValues (wrapInt (3 - fieldIndex))).map (fun v => { line with V3 := v })
    else some line).bind fun line =>
  (if fieldIndex ≤ 4 ∧ 4 < wrapInt (fieldIndex + fieldValues.length) then
      (indexAt fieldValues (wrapInt (4 - fieldIndex))).map (fun v => { line with V4 := v })
    else some line).bind fun line =>
  (if fieldIndex ≤ 5 ∧ 5 < wrapInt (fieldIndex + fieldValues.length) then
      (indexAt fieldValues (wrapInt (5 - fieldIndex))).map (fun v => { line with V5 := v })
    else some line).bind fun line =>
  some line

/-- The method `(*Adapter).RemoveFilteredPolicy`; `none` is a panic. -/
def RemoveFilteredPolicy (fault : Option StorageError) (_sec ptype : String)
    (fieldIndex : Int) (fieldValues : List String) (t : Table) :
    Option (Option StorageError × Table) :=
  match removeFilteredLine ptype fieldIndex fieldValues with
  | none => none
  | some line =>
    let ca := genFilteredWhereCondition line
    match deleteWhere fault [.raw ca.1 ca.2] t with
    | .error e => some (some e, t)
    | .ok t' => some (none, t')

/-- Failures of the engine inside `UpdateFilteredPolicies`: the transaction
frame and the three statements. -/
structure ReplaceFaults where
  tx : TxFaults := {}
  selectErr : Option StorageError := none
  deleteErr : Option StorageError := none
  insertErr : Option StorageError := none
deriving DecidableEq, Repr

/-- The transaction body of `UpdateFilteredPolicies`: it fills the captured
`oldR` and returns the first error. -/
def updateFilteredBody (fl : ReplaceFaults) (line : CasbinRule) (newR : List CasbinRule)
    (tx : Table) : List CasbinRule × Except StorageError Table :=
  let ca := genFilteredWhereCondition line
  match selectRows fl.selectErr [.raw ca.1 ca.2] tx with
  | .error errTx => ([], .error errTx)
  | .ok oldR =>
    match deleteByPK fl.deleteErr oldR tx with
    | .error errTx => (oldR, .error errTx)
    | .ok tx1 =>
      match insertRows fl.insertErr newR tx1 with
      | .error errTx => (oldR, .error errTx)
      | .ok tx2 => (oldR, .ok tx2)

/-- The method `(*Adapter).UpdateFilteredPolicies`: the returned old policies, the
returned error and the table afterwards; `none` is a panic. -/
def UpdateFilteredPolicies (fl : ReplaceFaults) (_sec ptype : String)
    (newRules : List (List String)) (fieldIndex : Int) (fieldValues : List String)
    (t : Table) : Option (List (List String) × Option StorageError × Table) :=
  match updateFilteredLine ptype fieldIndex fieldValues with
  | none => none
  | some line =>
    let newR := newRules.map (genPolicyLine ptype)
    let r := runInTx fl.tx [] (updateFilteredBody fl line newR) t
    let oldPolicies := r.1.map (fun rule =>
      [rule.Ptype, rule.V0, rule.V1, rule.V2, rule.V3, rule.V4, rule.V5])
    some (oldPolicies, r.2.1, r.2.2)

/-! ## Policy model, table lifecycle and the remaining operations -/

/-- The database around the table: `none` when the table does not exist. -/
abbrev Database := Option Table

/-- The error of a statement on a table that does not exist. -/
def noTableError : StorageError := "no such table"

/-- The policy engine's `model.Assertion`, reduced to the field the adapter
reads. -/
structure Assertion where
  Policy : List (List String) := []
deriving DecidableEq, Repr

/-- The policy engine's `model.AssertionMap`, a Go map, as the list of its
entries in the order a `range` loop visits them. -/
abbrev AssertionMap := List (String × Assertion)

/-- The policy engine's `model.Model`, reduced to the two sections the
adapter reads, `model["p"]` and `model["g"]`. -/
structure Model where
  p : AssertionMap := []
  g : AssertionMap := []
deriving DecidableEq, Repr

/-- The method `(*Adapter).dropTable`: drop the table if it exists. -/
def dropTable (fault : Option StorageError) (db : Database) :
    Option StorageError × Database :=
  match fault with
  | some err => (some err, db)
  | none => (none, none)

/-- The method `(*Adapter).createTable`: create the table if it does not
exist. -/
def createTable (fault : Option StorageError) (db : Database) :
    Option StorageError × Database :=
  match fault with
  | some err => (some err, db)
  | none => (none, some (db.getD []))

/-- The function `NewAdapterContext`: ping, create the table, return the
adapter; `tableName` is the variadic argument. -/
def NewAdapterContext (pingErr createErr : Option StorageError) (tableName : List String)
    (db : Database) : Option Adapter × Option StorageError × Database :=
  let a : Adapter := {}
  let a := match tableName with
    | [] => a
    | name :: _ => { a with tableName := name }
  match pingErr with
  | some err => (none, some err, db)
  | none =>
    match createTable createErr db with
    | (some err, db1) => (none, some err, db1)
    | (none, db1) => (some a, none, db1)

/-- The method `(*Adapter).LoadPolicy`: the policy model and the error
afterwards. -/
def LoadPolicy {M : Type} (persistLoadPolicyLine : String → M → M)
    (fault : Option StorageError) (model : M) (db : Database) : M × Option StorageError :=
  match db with
  | none => (model, some (fault.getD noTableError))
  | some t =>
    match selectRows fault [] t with
    | .error err => (model, some err)
    | .ok lines =>
      (lines.foldl (fun m line => loadPolicyLine persistLoadPolicyLine line m) model, none)

/-- One of the two nested loops of `SavePolicy`: the rows of every rule of
every policy type of a section are appended to `lines`. -/
def appendSection (lines : List CasbinRule) (sec : AssertionMap) : List CasbinRule :=
  sec.foldl
    (fun lines pa =>
      pa.2.Policy.foldl (fun lines rule => lines ++ [genPolicyLine pa.1 rule]) lines)
    lines

/-- Failures of the engine inside `SavePolicy`. -/
structure SaveFaults where
  dropErr : Option StorageError := none
  createErr : Option StorageError := none
  insertErr : Option StorageError := none
deriving DecidableEq, Repr

/-- The insert of a slice of rows into the table of a database. -/
def insertInto (fault : Option StorageError) (rows : List CasbinRule) (db : Database) :
    Option StorageError × Database :=
  match db with
  | none => (some (fault.getD noTableError), none)
  | some t =>
    match insertRows fault rows t with
    | .error err => (some err, some t)
    | .ok t' => (none, some t')

/-- The method `(*Adapter).SavePolicy`: drop, create, collect the rows of the
sections `p` and `g`, insert them unless there is none. -/
def SavePolicy (fl : SaveFaults) (model : Model) (db : Database) :
    Option StorageError × Database :=
  match dropTable fl.dropErr db with
  | (some err, db1) => (some err, db1)
  | (none, db1) =>
    match createTable fl.createErr db1 with
    | (some err, db2) => (some err, db2)
    | (none, db2) =>
      let lines := appendSection (appendSection [] model.p) model.g
      if lines.length = 0 then (none, db2)
      else insertInto fl.insertErr lines db2

/-- The method `(*Adapter).AddPolicy`. -/
def AddPolicy (fault : Option StorageError) (_sec ptype : String) (rule : List String)
    (t : Table) : Option StorageError × Table :=
  let line := genPolicyLine ptype rule
  match insertRows fault [line] t with
  | .error err => (some err, t)
  | .ok t' => (none, t')

/-- Failures of the engine inside a batch operation: the transaction frame
and, in order, the statements of the loop. -/
structure BatchFaults where
  tx : TxFaults := {}
  stmts : List (Option StorageError) := []
deriving DecidableEq, Repr

/-- The loop of `AddPolicies` inside its transaction. -/
def addPoliciesBody (ptype : String) :
    List (Option StorageError) → List (List String) → Table → Except StorageError Table
  | _, [], tx => .ok tx
  | fs, rule :: rules, tx =>
    let line := genPolicyLine ptype rule
    match insertRows (fs.headD none) [line] tx with
    | .error errTx => .error errTx
    | .ok tx1 => addPoliciesBody ptype fs.tail rules tx1

/-- The method `(*Adapter).AddPolicies`. -/
def AddPolicies (fl : BatchFaults) (_sec ptype : String) (rules : List (List String))
    (t : Table) : Option StorageError × Table :=
  let r := runInTx fl.tx () (fun tx => ((), addPoliciesBody ptype fl.stmts rules tx)) t
  (r.2.1, r.2.2)

/-- The loop of `RemovePolicies` inside its transaction. -/
def removePoliciesBody (ptype : String) :
    List (Option StorageError) → List (List String) → Table → Except StorageError Table
  | _, [], tx => .ok tx
  | fs, rule :: rules, tx =>
    let line := genPolicyLine ptype rule
    let ca := genWhereCondition line
    match deleteWhere (fs.headD none) [.raw ca.1 ca.2] tx with
    | .error errTx => .error errTx
    | .ok tx1 => removePoliciesBody ptype fs.tail rules tx1

/-- The method `(*Adapter).RemovePolicies`. -/
def RemovePolicies (fl : BatchFaults) (_sec ptype : String) (rules : List (List String))
    (t : Table) : Option StorageError × Table :=
  let r := runInTx fl.tx () (fun tx => ((), removePoliciesBody ptype fl.stmts rules tx)) t
  (r.2.1, r.2.2)

/-- The loop of `UpdatePolicies` inside its transaction, from the loop index
`i` on; `newRules[i]` is read first, and `none` is its out-of-range panic. -/
def updatePoliciesBody (ptype : String) (newRules : List (List String)) :
    Nat → List (Option StorageError) → List (List String) → Table →
      Option (Except StorageError Table)
  | _, _, [], tx => some (.ok tx)
  | i, fs, oldRule :: rest, tx =>
    match newRules[i]? with
    | none => none
    | some newRule =>
      let nRule := genPolicyLine ptype newRule
      let oRule := genPolicyLine ptype oldRule
      let ca := genWhereCondition oRule
      match updateWhere (fs.headD none) nRule [.raw ca.1 ca.2] tx with
      | .error errTx => some (.error errTx)
      | .ok tx1 => updatePoliciesBody ptype newRules (i + 1) fs.tail rest tx1

/-- The method `(*Adapter).UpdatePolicies`: the returned error and the table
afterwards; `none` is a panic.  The transaction is `db.RunInTx` as in
`runInTx`, with the panic of the body passed on. -/
def UpdatePolicies (fl : BatchFaults) (_sec ptype : String)
    (oldRules newRules : List (List String)) (t : Table) :
    Option (Option StorageError × Table) :=
  match fl.tx.beginErr with
  | some err => some (some err, t)
  | none =>
    match updatePoliciesBody ptype newRules 0 fl.stmts oldRules t with
    | none => none
    | some (.error err) => some (some err, t)
    | some (.ok t') =>
      match fl.tx.commitErr with
      | some err => some (some err, t)
      | none => some (none, t')

/-- A call of one operation of the adapter, with the failures the engine
answers it with. -/
inductive Op (M : Type) where
  | loadPolicy (fault : Option StorageError) (model : M)
  | savePolicy (fl : SaveFaults) (model : Model)
  | addPolicy (fault : Option StorageError) (sec ptype : String) (rule : List String)
  | addPolicies (fl : BatchFaults) (sec ptype : String) (rules : List (List String))
  | removePolicy (fault : Option StorageError) (sec ptype : String) (rule : List String)
  | removePolicies (fl : BatchFaults) (sec ptype : String) (rules : List (List String))
  | loadFilteredPolicy (fault : Option StorageError) (model : M) (filter : FilterArg)
  | removeFilteredPolicy (fault : Option StorageError) (sec ptype : String)
      (fieldIndex : Int) (fieldValues : List String)
  | updatePolicy (fault : Option StorageError) (sec ptype : String)
      (oldRule newRule : List String)
  | updatePolicies (fl : BatchFaults) (sec ptype : String)
      (oldRules newRules : List (List String))
  | updateFilteredPolicies (fl : ReplaceFaults) (sec ptype : String)
      (newRules : List (List String)) (fieldIndex : Int) (fieldValues : List String)

/-- The table after an operation on the table of a database; without a table
there is nothing to change. -/
def onTable (op : Table → Table) (db : Database) : Database :=
  db.map op

/-- The adapter and the database after one call.  A call that panics leaves
both as they were. -/
def step {M : Type} (persistLoadPolicyLine : String → M → M) :
    Op M → Adapter × Database → Adapter × Database
  | .loadPolicy _ _, (a, db) => (a, db)
  | .savePolicy fl model, (a, db) => (a, (SavePolicy fl model db).2)
  | .addPolicy fault sec ptype rule, (a, db) =>
    (a, onTable (fun t => (AddPolicy fault sec ptype rule t).2) db)
  | .addPolicies fl sec ptype rules, (a, db) =>
    (a, onTable (fun t => (AddPolicies fl sec ptype rules t).2) db)
  | .removePolicy fault sec ptype rule, (a, db) =>
    (a, onTable (fun t => (RemovePolicy fault sec ptype rule t).2) db)
  | .removePolicies fl sec ptype rules, (a, db) =>
    (a, onTable (fun t => (RemovePolicies fl sec ptype rules t).2) db)
  | .loadFilteredPolicy fault model filter, (a, db) =>
    match db with
    | none => (a, db)
    | some t => ((LoadFilteredPolicy persistLoadPolicyLine fault a model filter t).1, db)
  | .removeFilteredPolicy fault sec ptype fieldIndex fieldValues, (a, db) =>
    (a, onTable (fun t =>
      match RemoveFilteredPolicy fault sec ptype fieldIndex fieldValues t with
      | none => t
      | some r => r.2) db)
  | .updatePolicy fault sec ptype oldRule newRule, (a, db) =>
    (a, onTable (fun t => (UpdatePolicy fault sec ptype oldRule newRule t).2) db)
  | .updatePolicies fl sec ptype oldRules newRules, (a, db) =>
    (a, onTable (fun t =>
      match UpdatePolicies fl sec ptype oldRules newRules t with
      | none => t
      | some r => r.2) db)
  | .updateFilteredPolicies fl sec ptype newRules fieldIndex fieldValues, (a, db) =>
    (a, onTable (fun t =>
      match UpdateFilteredPolicies fl sec ptype newRules fieldIndex fieldValues t with
      | none => t
      | some r => r.2.2) db)

/-- The adapter and the database after a sequence of calls. -/
def run {M : Type} (persistLoadPolicyLine : String → M → M) :
    List (Op M) → Adapter × Database → Adapter × Database
  | [], s => s
  | op :: ops, s => run persistLoadPolicyLine ops (step persistLoadPolicyLine op s)

/-! ## Specification-side predicates -/

/-- The sparse match of the specification: a row matches a sparse rule when
it agrees with it at every position the sparse rule fills. -/
def sparseMatch (line row : CasbinRule) : Bool :=
  (line.Ptype = "" ∨ row.Ptype = line.Ptype) ∧ (line.V0 = "" ∨ row.V0 = line.V0) ∧
  (line.V1 = "" ∨ row.V1 = line.V1) ∧ (line.V2 = "" ∨ row.V2 = line.V2) ∧
  (line.V3 = "" ∨ row.V3 = line.V3) ∧ (line.V4 = "" ∨ row.V4 = line.V4) ∧
  (line.V5 = "" ∨ row.V5 = line.V5)

/-- The filter match of the specification: at every position with a
non-empty candidate set the row's value belongs to the set. -/
def filterMatch (fv : Filter) (row : CasbinRule) : Bool :=
  (fv.Ptype = [] ∨ row.Ptype ∈ fv.Ptype) ∧ (fv.V0 = [] ∨ row.V0 ∈ fv.V0) ∧
  (fv.V1 = [] ∨ row.V1 ∈ fv.V1) ∧ (fv.V2 = [] ∨ row.V2 ∈ fv.V2) ∧
  (fv.V3 = [] ∨ row.V3 ∈ fv.V3) ∧ (fv.V4 = [] ∨ row.V4 ∈ fv.V4) ∧
  (fv.V5 = [] ∨ row.V5 ∈ fv.V5)

/-- The sparse rule of the specification: field `j` is
`values[j - fieldIndex]` when `fieldIndex ≤ j < fieldIndex + len(values)`
and empty otherwise. -/
def sparseField (fieldIndex : Int) (fieldValues : List String) (j : Int) : String :=
  if fieldIndex ≤ j ∧ j < fieldIndex + fieldValues.length then
    fieldValues.getD (j - fieldIndex).toNat ""
  else ""

/-- The sparse rule of the specification for an offset and a list of
values. -/
def sparseRule (ptype : String) (fieldIndex : Int) (fieldValues : List String) : CasbinRule :=
  { Ptype := ptype,
    V0 := sparseField fieldIndex fieldValues 0,
    V1 := sparseField fieldIndex fieldValues 1,
    V2 := sparseField fieldIndex fieldValues 2,
    V3 := sparseField fieldIndex fieldValues 3,
    V4 := sparseField fieldIndex fieldValues 4,
    V5 := sparseField fieldIndex fieldValues 5 }

/-- The rules of a model the way the specification lists them: every rule of
every policy type of section `p`, then of section `g`, with its type tag. -/
def modelRules (model : Model) : List (String × List String) :=
  (model.p ++ model.g).flatMap (fun pa => pa.2.Policy.map (fun rule => (pa.1, rule)))

/-- The updates of the specification, one per pair `(oldRules[i], newRules[i])`. -/
def updatePairs (ptype : String) :
    List (Option StorageError) → List (List String × List String) → Table →
      Except StorageError Table
  | _, [], tx => .ok tx
  | fs, pair :: rest, tx =>
    match updateWhere (fs.headD none) (genPolicyLine ptype pair.2)
        [.raw (genWhereCondition (genPolicyLine ptype pair.1)).1
          (genWhereCondition (genPolicyLine ptype pair.1)).2] tx with
    | .error err => .error err
    | .ok tx1 => updatePairs ptype fs.tail rest tx1

/-! ## Lemmas on `stringsJoin` -/

theorem stringsJoin_cons_cons_data (a b : String) (rest : List String) :
    (stringsJoin (a :: b :: rest) ", ").data
      = a.data ++ ',' :: ' ' :: (stringsJoin (b :: rest) ", ").data := by
  simp [stringsJoin, String.data_append]

/-- Two comma-free blocks, each followed by nothing or by a comma, agree as
soon as the concatenations agree. -/
theorem commaFree_block_eq :
    ∀ (a b r₁ r₂ : List Char), ',' ∉ a → ',' ∉ b →
      (r₁ = [] ∨ ∃ t, r₁ = ',' :: t) → (r₂ = [] ∨ ∃ t, r₂ = ',' :: t) →
      a ++ r₁ = b ++ r₂ → a = b ∧ r₁ = r₂ := by
  intro a
  induction a with
  | nil =>
    intro b r₁ r₂ _ hb h₁ h₂ h
    cases b with
    | nil => exact ⟨rfl, by simpa using h⟩
    | cons c b =>
      exfalso
      simp only [List.nil_append, List.cons_append] at h
      rcases h₁ with h₁ | ⟨t, h₁⟩
      · rw [h₁] at h; cases h
      · rw [h₁] at h
        injection h with hc _
        exact hb (by rw [← hc]; exact List.mem_cons_self _ _)
  | cons c a ih =>
    intro b r₁ r₂ ha hb h₁ h₂ h
    cases b with
    | nil =>
      exfalso
      simp only [List.nil_append, List.cons_append] at h
      rcases h₂ with h₂ | ⟨t, h₂⟩
      · rw [h₂] at h; cases h
      · rw [h₂] at h
        injection h with hc _
        exact ha (by rw [hc]; exact List.mem_cons_self _ _)
    | cons d b =>
      simp only [List.cons_append] at h
      injection h with hcd htl
      have ha' : ',' ∉ a := fun hm => ha (List.mem_cons_of_mem _ hm)
      have hb' : ',' ∉ b := fun hm => hb (List.mem_cons_of_mem _ hm)
      obtain ⟨hab, hr⟩ := ih b r₁ r₂ ha' hb' h₁ h₂ htl
      exact ⟨by rw [hcd, hab], hr⟩

/-- The join with `", "` is injective on non-empty lists of comma-free
tokens. -/
theorem stringsJoin_injective :
    ∀ (xs ys : List String), xs ≠ [] → ys ≠ [] →
      (∀ x ∈ xs, ',' ∉ x.data) → (∀ y ∈ ys, ',' ∉ y.data) →
      stringsJoin xs ", " = stringsJoin ys ", " → xs = ys := by
  intro xs
  induction xs with
  | nil => intro ys h; exact absurd rfl h
  | cons a xs ih =>
    intro ys _ hys hx hy h
    cases ys with
    | nil => exact absurd rfl hys
    | cons b ys =>
      have hdata := congrArg String.data h
      have ha := hx a (List.mem_cons_self _ _)
      have hb := hy b (List.mem_cons_self _ _)
      cases xs with
      | nil =>
        cases ys with
        | nil =>
          simp only [stringsJoin] at h
          rw [h]
        | cons b' ys =>
          exfalso
          rw [stringsJoin_cons_cons_data] at hdata
          simp only [stringsJoin] at hdata
          have := commaFree_block_eq a.data b.data [] _ ha hb (Or.inl rfl)
            (Or.inr ⟨_, rfl⟩) (by simpa using hdata)
          cases this.2
      | cons a' xs =>
        cases ys with
        | nil =>
          exfalso
          rw [stringsJoin_cons_cons_data] at hdata
          simp only [stringsJoin] at hdata
          have := commaFree_block_eq a.data b.data _ [] ha hb (Or.inr ⟨_, rfl⟩)
            (Or.inl rfl) (by simpa using hdata)
          cases this.2
        | cons b' ys =>
          rw [stringsJoin_cons_cons_data, stringsJoin_cons_cons_data] at hdata
          obtain ⟨hab, hrest⟩ := commaFree_block_eq a.data b.data _ _ ha hb
            (Or.inr ⟨_, rfl⟩) (Or.inr ⟨_, rfl⟩) hdata
          have hab' : a = b := String.ext hab
          have hrest' : stringsJoin (a' :: xs) ", " = stringsJoin (b' :: ys) ", " := by
            apply String.ext
            simpa using hrest
          have := ih (b' :: ys) (by simp) (by simp)
            (fun x hm => hx x (List.mem_cons_of_mem _ hm))
            (fun y hm => hy y (List.mem_cons_of_mem _ hm)) hrest'
          rw [hab', this]

/-- What `loadPolicyLineText` makes of an encoded rule of arity 1 to 6 with
non-empty fields. -/
theorem loadPolicyLineText_genPolicyLine (ptype : String) (rule : List String)
    (h1 : 1 ≤ rule.length) (h6 : rule.length ≤ 6) (hne : ∀ f ∈ rule, f ≠ "") :
    loadPolicyLineText (genPolicyLine ptype rule) = stringsJoin (ptype :: rule) ", " := by
  rcases rule with _ | ⟨a, _ | ⟨b, _ | ⟨c, _ | ⟨d, _ | ⟨e, _ | ⟨f, _ | ⟨g, r⟩⟩⟩⟩⟩⟩⟩
  · simp at h1
  all_goals first
    | (simp only [List.length_cons] at h6; omega)
    | (simp only [List.mem_cons, List.mem_singleton, forall_eq_or_imp, forall_eq,
        List.not_mem_nil] at hne
       simp [genPolicyLine, loadPolicyLineText, hne])

/-! ## C1 to C3: the rule codec -/

/-- C1, counterexample: the round-trip law fails for a field that holds the
separator.  The rules `["a, b"]` and `["a", "b"]` both have arity 1 to 6 and
non-empty fields, they differ, and `loadPolicyLine` hands the parser the same
text `"p, a, b"` for both, so no decoding of that text gives back both. -/
theorem roundtrip_fails_on_separator :
    (["a, b"] : List String) ≠ ["a", "b"] ∧
    (∀ f ∈ (["a, b"] : List String), f ≠ "") ∧ (∀ f ∈ (["a", "b"] : List String), f ≠ "") ∧
    loadPolicyLineText (genPolicyLine "p" ["a, b"]) = "p, a, b" ∧
    loadPolicyLineText (genPolicyLine "p" ["a", "b"]) = "p, a, b" ∧
    ¬ ∃ decode : String → String × List String,
        decode (loadPolicyLineText (genPolicyLine "p" ["a, b"])) = ("p", ["a, b"]) ∧
        decode (loadPolicyLineText (genPolicyLine "p" ["a", "b"])) = ("p", ["a", "b"]) := by
  have e1 : loadPolicyLineText (genPolicyLine "p" ["a, b"]) = "p, a, b" := by decide
  have e2 : loadPolicyLineText (genPolicyLine "p" ["a", "b"]) = "p, a, b" := by decide
  refine ⟨by decide, by decide, by decide, e1, e2, ?_⟩
  rintro ⟨decode, h1, h2⟩
  rw [e1] at h1
  rw [e2] at h2
  rw [h1] at h2
  exact absurd h2 (by decide)

/-- C1, amended: for every type tag and every rule of arity 1 to 6 whose
fields are all non-empty, the text `loadPolicyLine` builds from
`genPolicyLine ptype rule` is the type tag and the fields of the rule, in
order, joined by `", "`; and when neither the type tag nor a field holds a
comma, that text determines `(ptype, rule)`: no other comma-free pair of a
type tag and a rule of arity 1 to 6 with non-empty fields yields it. -/
theorem roundtrip_comma_free (ptype : String) (rule : List String)
    (h1 : 1 ≤ rule.length) (h6 : rule.length ≤ 6) (hne : ∀ f ∈ rule, f ≠ "")
    (hcomma : ∀ s ∈ ptype :: rule, ',' ∉ s.data) :
    loadPolicyLineText (genPolicyLine ptype rule) = stringsJoin (ptype :: rule) ", " ∧
    ∀ (ptype' : String) (rule' : List String),
      1 ≤ rule'.length → rule'.length ≤ 6 → (∀ f ∈ rule', f ≠ "") →
      (∀ s ∈ ptype' :: rule', ',' ∉ s.data) →
      loadPolicyLineText (genPolicyLine ptype' rule')
        = loadPolicyLineText (genPolicyLine ptype rule) →
      (ptype', rule') = (ptype, rule) := by
  refine ⟨loadPolicyLineText_genPolicyLine ptype rule h1 h6 hne, ?_⟩
  intro ptype' rule' h1' h6' hne' hcomma' heq
  rw [loadPolicyLineText_genPolicyLine ptype rule h1 h6 hne,
    loadPolicyLineText_genPolicyLine ptype' rule' h1' h6' hne'] at heq
  have := stringsJoin_injective (ptype' :: rule') (ptype :: rule) (by simp) (by simp)
    hcomma' hcomma heq
  injection this with hp hr
  rw [hp, hr]

/-- Witness of `roundtrip_comma_free` at the rule `alice, data1, read`. -/
theorem roundtrip_comma_free_witness :
    loadPolicyLineText (genPolicyLine "p" ["alice", "data1", "read"])
      = stringsJoin ["p", "alice", "data1", "read"] ", " ∧
    ∀ (ptype' : String) (rule' : List String),
      1 ≤ rule'.length → rule'.length ≤ 6 → (∀ f ∈ rule', f ≠ "") →
      (∀ s ∈ ptype' :: rule', ',' ∉ s.data) →
      loadPolicyLineText (genPolicyLine ptype' rule')
        = loadPolicyLineText (genPolicyLine "p" ["alice", "data1", "read"]) →
      (ptype', rule') = ("p", ["alice", "data1", "read"]) :=
  roundtrip_comma_free "p" ["alice", "data1", "read"] (by decide) (by decide)
    (by decide) (by decide)

/-- C2: arity inference.  For every row, when `k` is the greatest index of a
non-empty field, the text `loadPolicyLine` hands the parser is the type tag
followed by fields `0..k`, joined by `", "`; a row with fields
`[a, b, "", "", "", ""]` (`a`, `b` non-empty) gives the arity-2 line of
`[a, b]`; a row whose six fields are all empty gives the empty text whatever
its type tag, so a parser that ignores the empty line leaves the model as it
was. -/
theorem arity_inference (row : CasbinRule) :
    (∀ k, k < 6 → row.fields.getD k "" ≠ "" →
        (∀ j, k < j → j < 6 → row.fields.getD j "" = "") →
        loadPolicyLineText row = stringsJoin (row.Ptype :: row.fields.take (k + 1)) ", ") ∧
    (∀ a b : String, a ≠ "" → b ≠ "" → row.fields = [a, b, "", "", "", ""] →
        loadPolicyLineText row = stringsJoin [row.Ptype, a, b] ", ") ∧
    ((∀ f ∈ row.fields, f = "") →
        loadPolicyLineText row = "" ∧
        ∀ (M : Type) (parser : String → M → M) (model : M),
          (∀ m, parser "" m = m) → loadPolicyLine parser row model = model) := by
  obtain ⟨id, pt, v0, v1, v2, v3, v4, v5⟩ := row
  refine ⟨?_, ?_, ?_⟩
  · intro k hk hnz hz
    have h1 : k < 1 → v1 = "" := fun h => by
      simpa [CasbinRule.fields] using hz 1 h (by norm_num)
    have h2 : k < 2 → v2 = "" := fun h => by
      simpa [CasbinRule.fields] using hz 2 h (by norm_num)
    have h3 : k < 3 → v3 = "" := fun h => by
      simpa [CasbinRule.fields] using hz 3 h (by norm_num)
    have h4 : k < 4 → v4 = "" := fun h => by
      simpa [CasbinRule.fields] using hz 4 h (by norm_num)
    have h5 : k < 5 → v5 = "" := fun h => by
      simpa [CasbinRule.fields] using hz 5 h (by norm_num)
    clear hz
    interval_cases k <;>
      simp_all [CasbinRule.fields, loadPolicyLineText]
  · intro a b ha hb hf
    simp only [CasbinRule.fields, List.cons.injEq, and_true] at hf
    obtain ⟨r0, r1, r2, r3, r4, r5⟩ := hf
    subst r0 r1 r2 r3 r4 r5
    simp [loadPolicyLineText, hb]
  · intro hall
    simp only [CasbinRule.fields, List.mem_cons, List.mem_singleton, forall_eq_or_imp,
      forall_eq, List.not_mem_nil, IsEmpty.forall_iff, implies_true, and_true] at hall
    obtain ⟨r0, r1, r2, r3, r4, r5⟩ := hall
    subst r0 r1 r2 r3 r4 r5
    have ht : loadPolicyLineText
        { Id := id, Ptype := pt, V0 := "", V1 := "", V2 := "", V3 := "", V4 := "", V5 := "" }
        = "" := by
      simp [loadPolicyLineText]
    refine ⟨ht, ?_⟩
    intro M parser model hp
    simp only [loadPolicyLine, ht, hp]

/-- Witness of `arity_inference`: the row `(p, alice, data1, "", …)` has its
greatest non-empty field at index 1 and decodes to `p, alice, data1`; the row
`(p, "", …)` decodes to the empty text. -/
theorem arity_inference_witness :
    loadPolicyLineText { Ptype := "p", V0 := "alice", V1 := "data1" }
      = stringsJoin ["p", "alice", "data1"] ", " ∧
    loadPolicyLineText { Ptype := "p", V0 := "alice", V1 := "data1" } = "p, alice, data1" ∧
    loadPolicyLineText { Ptype := "p" } = "" ∧
    loadPolicyLine (fun s (m : List String) => if s = "" then m else s :: m)
      { Ptype := "p" } [] = [] :=
  ⟨(arity_inference { Ptype := "p", V0 := "alice", V1 := "data1" }).1 1 (by decide)
      (by decide) (by intro j h1 h2; interval_cases j <;> decide),
   by decide,
   ((arity_inference { Ptype := "p" }).2.2 (by decide)).1,
   ((arity_inference { Ptype := "p" }).2.2 (by decide)).2 (List String)
      (fun s m => if s = "" then m else s :: m) [] (by intro m; simp)⟩

/-- C3: rule encoding.  For every type tag and every rule, `genPolicyLine`
sets the type tag to `ptype`, field `i` to `rule[i]` for `i < min(len, 6)` and
the remaining fields to the empty string, leaves the identity at zero, and
truncates a longer rule: it gives the row of the first six fields.  It is a
total function: every index it reads is under its guard. -/
theorem genPolicyLine_encoding (ptype : String) (rule : List String) :
    (genPolicyLine ptype rule).Ptype = ptype ∧
    (genPolicyLine ptype rule).Id = 0 ∧
    (genPolicyLine ptype rule).fields
      = rule.take 6 ++ List.replicate (6 - min rule.length 6) "" ∧
    (∀ i, i < min rule.length 6 →
      (genPolicyLine ptype rule).fields[i]? = rule[i]?) ∧
    (∀ i, min rule.length 6 ≤ i → i < 6 →
      (genPolicyLine ptype rule).fields[i]? = some "") ∧
    genPolicyLine ptype rule = genPolicyLine ptype (rule.take 6) := by
  rcases rule with _ | ⟨a, _ | ⟨b, _ | ⟨c, _ | ⟨d, _ | ⟨e, _ | ⟨f, r⟩⟩⟩⟩⟩⟩
  all_goals
    refine ⟨by simp [genPolicyLine], by simp [genPolicyLine],
      by simp [genPolicyLine, CasbinRule.fields, List.replicate], ?_, ?_,
      by simp [genPolicyLine]⟩
  all_goals
    intro i
    simp only [List.length_cons, List.length_nil]
    intro hi
    first
      | (intro hi6
         interval_cases i <;> first | omega | simp [genPolicyLine, CasbinRule.fields])
      | (have hi6 : i < 6 := by omega
         interval_cases i <;> first | omega | simp [genPolicyLine, CasbinRule.fields])

/-! ## C4: the exact-match predicate -/

theorem parseWhere_exact :
    parseWhere "ptype = ? AND v0 = ? AND v1 = ? AND v2 = ? AND v3 = ? AND v4 = ? AND v5 = ?"
      = some [CasbinRule.Ptype, CasbinRule.V0, CasbinRule.V1, CasbinRule.V2,
          CasbinRule.V3, CasbinRule.V4, CasbinRule.V5] := by
  rfl

/-- The predicate the engine evaluates for the exact-match clause of `line`. -/
theorem compile_genWhereCondition (line : CasbinRule) :
    (WhereCond.raw (genWhereCondition line).1 (genWhereCondition line).2).compile
      = some (fun row => ([CasbinRule.Ptype, CasbinRule.V0, CasbinRule.V1, CasbinRule.V2,
          CasbinRule.V3, CasbinRule.V4, CasbinRule.V5].zip line.key).all
            (fun ca => ca.1 row == ca.2)) := by
  simp only [genWhereCondition, WhereCond.compile, parseWhere_exact]
  simp [CasbinRule.key, CasbinRule.fields]

theorem exact_all_iff (line row : CasbinRule) :
    (([CasbinRule.Ptype, CasbinRule.V0, CasbinRule.V1, CasbinRule.V2,
        CasbinRule.V3, CasbinRule.V4, CasbinRule.V5].zip line.key).all
          (fun ca => ca.1 row == ca.2)) = true ↔ row.key = line.key := by
  simp [CasbinRule.key, CasbinRule.fields, and_assoc]

theorem compileWhere_single (w : WhereCond) (p : CasbinRule → Bool)
    (h : w.compile = some p) :
    compileWhere [w] = some (fun row => p row && true) := by
  simp [compileWhere, h]

/-- C4: exact-match scoping.  For every row, `genWhereCondition` returns the
conjunction of the seven equality constraints `ptype, v0..v5` in that order,
with the row's seven values (empty strings included) as arguments; the engine
evaluates the clause built from `genPolicyLine ptype oldRule` to true on a
stored row exactly when the row's type tag and six fields equal the encoded
old rule; `RemovePolicy` deletes exactly those rows and `UpdatePolicy`
rewrites exactly those rows, so every other row, such as
`(p, alice, data1, read, extra)` for the old rule `[alice, data1, read]`,
stays in the table as it was. -/
theorem exact_match_scoping (line : CasbinRule) (sec ptype : String)
    (oldRule newRule : List String) (fault : Option StorageError) (t : Table) :
    (genWhereCondition line).1
      = stringsJoin ["ptype = ?", "v0 = ?", "v1 = ?", "v2 = ?", "v3 = ?", "v4 = ?", "v5 = ?"]
          " AND " ∧
    (genWhereCondition line).2
      = [line.Ptype, line.V0, line.V1, line.V2, line.V3, line.V4, line.V5] ∧
    (∃ p, (WhereCond.raw (genWhereCondition (genPolicyLine ptype oldRule)).1
              (genWhereCondition (genPolicyLine ptype oldRule)).2).compile = some p ∧
          ∀ row, p row = true ↔ row.key = (genPolicyLine ptype oldRule).key) ∧
    RemovePolicy fault sec ptype oldRule t
      = (match fault with
         | some e => (some e, t)
         | none => (none, t.filter
             (fun row => !decide (row.key = (genPolicyLine ptype oldRule).key)))) ∧
    ((UpdatePolicy fault sec ptype oldRule newRule t).2 = t ∨
     UpdatePolicy fault sec ptype oldRule newRule t
      = (none, t.map (fun row =>
          if row.key = (genPolicyLine ptype oldRule).key
          then { genPolicyLine ptype newRule with Id := row.Id } else row))) ∧
    (∀ row ∈ t, row.key ≠ (genPolicyLine ptype oldRule).key →
      row ∈ (RemovePolicy fault sec ptype oldRule t).2 ∧
      row ∈ (UpdatePolicy fault sec ptype oldRule newRule t).2) ∧
    UpdatePolicy none "p" "p" ["alice", "data1", "read"] ["alice", "data1", "write"]
        [{ Id := 1, Ptype := "p", V0 := "alice", V1 := "data1", V2 := "read" },
         { Id := 2, Ptype := "p", V0 := "alice", V1 := "data1", V2 := "read", V3 := "extra" }]
      = (none,
        [{ Id := 1, Ptype := "p", V0 := "alice", V1 := "data1", V2 := "write" },
         { Id := 2, Ptype := "p", V0 := "alice", V1 := "data1", V2 := "read", V3 := "extra" }]) ∧
    RemovePolicy none "p" "p" ["alice", "data1", "read"]
        [{ Id := 1, Ptype := "p", V0 := "alice", V1 := "data1", V2 := "read" },
         { Id := 2, Ptype := "p", V0 := "alice", V1 := "data1", V2 := "read", V3 := "extra" }]
      = (none,
        [{ Id := 2, Ptype := "p", V0 := "alice", V1 := "data1", V2 := "read", V3 := "extra" }]) := by
  have hc := compile_genWhereCondition (genPolicyLine ptype oldRule)
  have hw := compileWhere_single _ _ hc
  have hp : ∀ row : CasbinRule,
      ((([CasbinRule.Ptype, CasbinRule.V0, CasbinRule.V1, CasbinRule.V2,
        CasbinRule.V3, CasbinRule.V4, CasbinRule.V5].zip
          (genPolicyLine ptype oldRule).key).all (fun ca => ca.1 row == ca.2)) && true)
        = decide (row.key = (genPolicyLine ptype oldRule).key) := by
    intro row
    rw [Bool.and_true, Bool.eq_iff_iff, exact_all_iff]
    simp
  have hrem : RemovePolicy fault sec ptype oldRule t
      = (match fault with
         | some e => (some e, t)
         | none => (none, t.filter
             (fun row => !decide (row.key = (genPolicyLine ptype oldRule).key)))) := by
    cases fault with
    | some e => simp [RemovePolicy, deleteWhere]
    | none =>
      simp only [RemovePolicy, deleteWhere, hw]
      congr 2
      funext row
      rw [hp row]
  have hupd : (UpdatePolicy fault sec ptype oldRule newRule t).2 = t ∨
      UpdatePolicy fault sec ptype oldRule newRule t
      = (none, t.map (fun row =>
          if row.key = (genPolicyLine ptype oldRule).key
          then { genPolicyLine ptype newRule with Id := row.Id } else row)) := by
    cases fault with
    | some e => left; simp [UpdatePolicy, updateWhere]
    | none =>
      simp only [UpdatePolicy, updateWhere, hw, hp]
      split
      · rename_i e heq
        left
        rfl
      · rename_i t' heq
        right
        split at heq
        · injection heq with heq
          rw [← heq]
          simp
        · cases heq
  refine ⟨rfl, rfl, ⟨_, hc, fun row => exact_all_iff _ row⟩, hrem, hupd, ?_, by decide,
    by decide⟩
  intro row hrow hkey
  constructor
  · rw [hrem]
    cases fault with
    | some e => exact hrow
    | none => simp [List.mem_filter, hrow, hkey]
  · rcases hupd with h | h
    · rw [h]; exact hrow
    · rw [h]
      simp only [List.mem_map]
      exact ⟨row, hrow, by simp [hkey]⟩

/-! ## C5: the sparse-match predicate -/

theorem splitAnd_last : ∀ p : List Char, 'A' ∉ p → splitAnd p = [p] := by
  intro p
  induction p with
  | nil => intro _; rfl
  | cons c p ih =>
    intro h
    have hp : 'A' ∉ p := fun hm => h (List.mem_cons_of_mem _ hm)
    rw [splitAnd.eq_3, ih hp]
    · rfl
    · intro tail _ hrest
      subst hrest
      exact hp (List.mem_cons_self _ _)

theorem splitAnd_piece : ∀ p : List Char, 'A' ∉ p → ∀ rest,
    splitAnd (p ++ ' ' :: 'A' :: 'N' :: 'D' :: ' ' :: rest) = p :: splitAnd rest := by
  intro p
  induction p with
  | nil => intro _ rest; simp [splitAnd]
  | cons c p ih =>
    intro h rest
    have hp : 'A' ∉ p := fun hm => h (List.mem_cons_of_mem _ hm)
    rw [List.cons_append, splitAnd.eq_3, ih hp]
    · rfl
    · intro tail _ hrest
      cases p with
      | nil => simp at hrest
      | cons d p =>
        simp only [List.cons_append] at hrest
        injection hrest with hd _
        exact hp (by rw [hd]; exact List.mem_cons_self _ _)

theorem stringsJoin_and_data (a b : String) (rest : List String) :
    (stringsJoin (a :: b :: rest) " AND ").data
      = a.data ++ ' ' :: 'A' :: 'N' :: 'D' :: ' ' :: (stringsJoin (b :: rest) " AND ").data := by
  simp [stringsJoin, String.data_append]

/-- Splitting the join of conjuncts gives the conjuncts back. -/
theorem splitAnd_stringsJoin :
    ∀ pieces : List String, pieces ≠ [] → (∀ p ∈ pieces, 'A' ∉ p.data) →
      splitAnd (stringsJoin pieces " AND ").data = pieces.map String.data := by
  intro pieces
  induction pieces with
  | nil => intro h; exact absurd rfl h
  | cons a rest ih =>
    intro _ hA
    cases rest with
    | nil =>
      simp only [stringsJoin, List.map_cons, List.map_nil]
      exact splitAnd_last _ (hA a (List.mem_cons_self _ _))
    | cons b rest =>
      rw [stringsJoin_and_data, splitAnd_piece _ (hA a (List.mem_cons_self _ _)),
        ih (by simp) (fun p hp => hA p (List.mem_cons_of_mem _ hp))]
      rfl

/-- The loop of `genFilteredWhereCondition`, as a filter. -/
theorem filtered_foldl (l : List (String × String)) :
    ∀ acc : List String × List String,
      l.foldl (fun (acc : List String × List String) (f : String × String) =>
          if f.2 ≠ "" then (acc.1 ++ [f.1 ++ " = ?"], acc.2 ++ [f.2]) else acc) acc
        = (acc.1 ++ ((l.filter (fun f => decide (f.2 ≠ ""))).map (fun f => f.1 ++ " = ?")),
           acc.2 ++ ((l.filter (fun f => decide (f.2 ≠ ""))).map (fun f => f.2))) := by
  induction l with
  | nil => intro acc; simp
  | cons f l ih =>
    intro acc
    rw [List.foldl_cons, List.filter_cons]
    by_cases hf : f.2 = ""
    · have hd : decide (f.2 ≠ "") = false := by simp [hf]
      rw [if_neg (not_not.mpr hf), ih, hd]
      rfl
    · have hd : decide (f.2 ≠ "") = true := by simp [hf]
      rw [if_pos hf, ih, hd]
      simp

theorem genFilteredWhereCondition_eq (line : CasbinRule) :
    genFilteredWhereCondition line
      = (stringsJoin (((filteredFields line).filter (fun f => decide (f.2 ≠ ""))).map
            (fun f => f.1 ++ " = ?")) " AND ",
         ((filteredFields line).filter (fun f => decide (f.2 ≠ ""))).map (fun f => f.2)) := by
  simp only [genFilteredWhereCondition, filtered_foldl, List.nil_append]

theorem parseConjunct_column (name : String) (c : CasbinRule → String)
    (h : column name = some c) : parseConjunct (name ++ " = ?").data = some c := by
  unfold column at h
  split_ifs at h with h0 h1 h2 h3 h4 h5 h6
  all_goals subst_vars
  all_goals exact h

theorem conjunct_facts (name : String) (c : CasbinRule → String)
    (h : column name = some c) :
    'A' ∉ (name ++ " = ?").data ∧ (name ++ " = ?").data.count '?' = 1 ∧
      (name ++ " = ?").data ≠ [] := by
  unfold column at h
  split_ifs at h with h0 h1 h2 h3 h4 h5 h6
  all_goals subst_vars
  all_goals decide

/-- The number of placeholders in a join of conjuncts. -/
theorem count_stringsJoin :
    ∀ pieces : List String, (∀ p ∈ pieces, p.data.count '?' = 1) →
      (stringsJoin pieces " AND ").data.count '?' = pieces.length := by
  intro pieces
  induction pieces with
  | nil => intro _; rfl
  | cons a rest ih =>
    intro h
    cases rest with
    | nil => simpa [stringsJoin] using h a (List.mem_cons_self _ _)
    | cons b rest =>
      rw [stringsJoin_and_data, List.count_append]
      have h1 := h a (List.mem_cons_self _ _)
      have h2 := ih (fun p hp => h p (List.mem_cons_of_mem _ hp))
      simp only [List.count_cons, h1, h2, List.length_cons]
      simp
      omega

/-- Parsing the clause of a list of named positions gives their columns. -/
theorem parseWhere_stringsJoin :
    ∀ l : List (String × String), (∀ f ∈ l, (column f.1).isSome) →
      parseWhere (stringsJoin (l.map (fun f => f.1 ++ " = ?")) " AND ")
        = some (l.map (fun f => (column f.1).getD (fun _ => ""))) := by
  intro l hl
  cases l with
  | nil => rfl
  | cons f l =>
    have hcol : ∀ g ∈ f :: l, ∃ c, column g.1 = some c := fun g hg =>
      Option.isSome_iff_exists.mp (hl g hg)
    have hne : stringsJoin ((f :: l).map (fun f => f.1 ++ " = ?")) " AND " ≠ "" := by
      obtain ⟨c, hc⟩ := hcol f (List.mem_cons_self _ _)
      have h3 := (conjunct_facts f.1 c hc).2.2
      intro h
      have hd := congrArg String.data h
      cases l with
      | nil => simp only [List.map_cons, List.map_nil, stringsJoin] at hd; exact h3 hd
      | cons g l =>
        simp only [List.map_cons] at hd
        rw [stringsJoin_and_data] at hd
        have : (f.1 ++ " = ?").data = [] := (List.append_eq_nil.mp hd).1
        exact h3 this
    have hA : ∀ p ∈ (f :: l).map (fun f => f.1 ++ " = ?"), 'A' ∉ p.data := by
      intro p hp
      obtain ⟨g, hg, rfl⟩ := List.mem_map.mp hp
      obtain ⟨c, hc⟩ := hcol g hg
      exact (conjunct_facts g.1 c hc).1
    unfold parseWhere
    rw [if_neg hne, splitAnd_stringsJoin _ (by simp) hA]
    clear hne hA hl
    generalize f :: l = l' at hcol
    induction l' with
    | nil => rfl
    | cons g l' ih =>
      obtain ⟨c, hc⟩ := hcol g (List.mem_cons_self _ _)
      have ih' := ih (fun g' hg' => hcol g' (List.mem_cons_of_mem _ hg'))
      simp only [List.map_cons, List.mapM_cons, parseConjunct_column g.1 c hc, hc,
        Option.getD_some] at ih' ⊢
      rw [ih']
      rfl

theorem filteredFields_columns (line : CasbinRule) :
    ∀ f ∈ (filteredFields line).filter (fun f => decide (f.2 ≠ "")), (column f.1).isSome := by
  intro f hf
  have hm := (List.mem_filter.mp hf).1
  simp only [filteredFields, List.mem_cons, List.mem_singleton, List.not_mem_nil,
    or_false] at hm
  rcases hm with h | h | h | h | h | h | h <;> subst h <;> rfl

theorem zip_map_all {α β γ : Type} (f : α → β) (g : α → γ) (h : β × γ → Bool) :
    ∀ l : List α, ((l.map f).zip (l.map g)).all h = l.all (fun x => h (f x, g x)) := by
  intro l
  induction l with
  | nil => rfl
  | cons a l ih => simp [ih]

/-- The predicate the engine evaluates for the sparse clause of `line`. -/
theorem compile_genFilteredWhereCondition (line : CasbinRule) :
    (WhereCond.raw (genFilteredWhereCondition line).1
        (genFilteredWhereCondition line).2).compile
      = some (fun row => sparseMatch line row) := by
  rw [genFilteredWhereCondition_eq]
  simp only [WhereCond.compile,
    parseWhere_stringsJoin _ (filteredFields_columns line), List.length_map, if_true]
  congr 1
  funext row
  rw [zip_map_all, List.all_filter]
  simp [filteredFields, column, sparseMatch]

/-- C5: the sparse-match predicate.  For every row,
`genFilteredWhereCondition` returns one conjunct `col = ?` and one argument
for exactly the positions among `ptype, v0..v5` whose value is non-empty, in
column order, the conjuncts joined by `" AND "`; the clause has as many
placeholders as there are arguments; a row with all seven positions empty
gives the empty clause and no argument; and the engine evaluates the clause
to the sparse match: true on a stored row exactly when the row agrees with
every filled position. -/
theorem sparse_predicate (line : CasbinRule) :
    genFilteredWhereCondition line
      = (stringsJoin (((filteredFields line).filter (fun f => decide (f.2 ≠ ""))).map
            (fun f => f.1 ++ " = ?")) " AND ",
         ((filteredFields line).filter (fun f => decide (f.2 ≠ ""))).map (fun f => f.2)) ∧
    (genFilteredWhereCondition line).2 = line.key.filter (fun s => decide (s ≠ "")) ∧
    (genFilteredWhereCondition line).1.data.count '?'
      = (genFilteredWhereCondition line).2.length ∧
    ((∀ s ∈ line.key, s = "") → genFilteredWhereCondition line = ("", [])) ∧
    (WhereCond.raw (genFilteredWhereCondition line).1
        (genFilteredWhereCondition line).2).compile
      = some (fun row => sparseMatch line row) ∧
    genFilteredWhereCondition { Ptype := "p", V1 := "data2", V2 := "write" }
      = ("ptype = ? AND v1 = ? AND v2 = ?", ["p", "data2", "write"]) := by
  refine ⟨genFilteredWhereCondition_eq line, ?_, ?_, ?_,
    compile_genFilteredWhereCondition line, by decide⟩
  · rw [genFilteredWhereCondition_eq]
    have hk : line.key = (filteredFields line).map (fun f => f.2) := rfl
    rw [hk, List.filter_map]
    rfl
  · rw [genFilteredWhereCondition_eq]
    simp only [List.length_map]
    rw [count_stringsJoin, List.length_map]
    intro p hp
    obtain ⟨g, hg, rfl⟩ := List.mem_map.mp hp
    obtain ⟨c, hc⟩ := Option.isSome_iff_exists.mp (filteredFields_columns line g hg)
    exact (conjunct_facts g.1 c hc).2.1
  · intro h
    simp only [CasbinRule.key, CasbinRule.fields, List.mem_cons, List.mem_singleton,
      forall_eq_or_imp, forall_eq, List.not_mem_nil, IsEmpty.forall_iff, implies_true,
      and_true] at h
    obtain ⟨h0, h1, h2, h3, h4, h5, h6⟩ := h
    rw [genFilteredWhereCondition_eq]
    simp [filteredFields, h0, h1, h2, h3, h4, h5, h6, stringsJoin]

/-! ## C6: the offset convention -/

theorem wrapInt_of_range (x : Int) (h1 : -2 ^ 63 ≤ x) (h2 : x < 2 ^ 63) : wrapInt x = x := by
  unfold wrapInt
  omega

theorem indexAt_of_range (xs : List String) (i : Int) (h0 : 0 ≤ i) (h1 : i < xs.length) :
    indexAt xs i = some (xs.getD i.toNat "") := by
  unfold indexAt
  have hlt : i.toNat < xs.length := by omega
  rw [if_pos h0, List.getD_eq_getElem?_getD, List.getElem?_eq_getElem hlt]
  rfl

/-- One guarded assignment `line.Vj = fieldValues[j-fieldIndex]` of the
filtered operations: the index is in range whenever the guard holds, and the
field ends up as the specification's sparse field. -/
theorem guarded_index (fieldIndex : Int) (fieldValues : List String) (j : Int)
    (hj0 : 0 ≤ j) (hj5 : j ≤ 5)
    (hlo : -2 ^ 63 ≤ fieldIndex) (hlen : (fieldValues.length : Int) + 5 < 2 ^ 63)
    (f : String → CasbinRule) (line : CasbinRule) (hline : f "" = line) :
    (if fieldIndex ≤ j ∧ j < wrapInt (fieldIndex + fieldValues.length) then
        (indexAt fieldValues (wrapInt (j - fieldIndex))).map f
      else some line)
      = some (f (sparseField fieldIndex fieldValues j)) := by
  unfold sparseField
  by_cases hle : fieldIndex ≤ j
  · have hw : wrapInt (fieldIndex + fieldValues.length) = fieldIndex + fieldValues.length :=
      wrapInt_of_range _ (by omega) (by omega)
    rw [hw]
    by_cases hlt : j < fieldIndex + fieldValues.length
    · have hw2 : wrapInt (j - fieldIndex) = j - fieldIndex :=
        wrapInt_of_range _ (by omega) (by omega)
      rw [if_pos ⟨hle, hlt⟩, if_pos ⟨hle, hlt⟩, hw2,
        indexAt_of_range _ _ (by omega) (by omega)]
      rfl
    · rw [if_neg (fun h => hlt h.2), if_neg (fun h => hlt h.2), hline]
  · rw [if_neg (fun h => hle h.1), if_neg (fun h => hle h.1), hline]

theorem guarded_index_bind (fieldIndex : Int) (fieldValues : List String) (j : Int)
    (hj0 : 0 ≤ j) (hj5 : j ≤ 5)
    (hlo : -2 ^ 63 ≤ fieldIndex) (hlen : (fieldValues.length : Int) + 5 < 2 ^ 63)
    (f : String → CasbinRule) (line : CasbinRule) (hline : f "" = line)
    (k : CasbinRule → Option CasbinRule) :
    ((if fieldIndex ≤ j ∧ j < wrapInt (fieldIndex + fieldValues.length) then
        (indexAt fieldValues (wrapInt (j - fieldIndex))).map f
      else some line).bind k)
      = k (f (sparseField fieldIndex fieldValues j)) := by
  rw [guarded_index fieldIndex fieldValues j hj0 hj5 hlo hlen f line hline]
  rfl

theorem updateFilteredLine_eq (ptype : String) (fieldIndex : Int) (fieldValues : List String)
    (hlo : -2 ^ 63 ≤ fieldIndex) (hlen : (fieldValues.length : Int) + 5 < 2 ^ 63) :
    updateFilteredLine ptype fieldIndex fieldValues
      = some (sparseRule ptype fieldIndex fieldValues) := by
  have g := fun (j : Int) (h0 : 0 ≤ j) (h5 : j ≤ 5) =>
    guarded_index_bind fieldIndex fieldValues j h0 h5 hlo hlen
  unfold updateFilteredLine sparseRule
  rw [g 0 (by norm_num) (by norm_num) _ _ rfl,
    g 1 (by norm_num) (by norm_num) _ _ rfl,
    g 2 (by norm_num) (by norm_num) _ _ rfl,
    g 3 (by norm_num) (by norm_num) _ _ rfl,
    g 4 (by norm_num) (by norm_num) _ _ rfl,
    g 5 (by norm_num) (by norm_num) _ _ rfl]

theorem removeFilteredLine_eq (ptype : String) (fieldIndex : Int) (fieldValues : List String)
    (hlo : -2 ^ 63 ≤ fieldIndex) (hlen : (fieldValues.length : Int) + 5 < 2 ^ 63) :
    removeFilteredLine ptype fieldIndex fieldValues
      = some (sparseRule ptype fieldIndex fieldValues) := by
  have g := fun (j : Int) (h0 : 0 ≤ j) (h5 : j ≤ 5) =>
    guarded_index_bind fieldIndex fieldValues j h0 h5 hlo hlen
  unfold removeFilteredLine sparseRule
  simp only [gt_iff_lt]
  rw [g 0 (by norm_num) (by norm_num) _ _ rfl,
    g 1 (by norm_num) (by norm_num) _ _ rfl,
    g 2 (by norm_num) (by norm_num) _ _ rfl,
    g 3 (by norm_num) (by norm_num) _ _ rfl,
    g 4 (by norm_num) (by norm_num) _ _ rfl,
    g 5 (by norm_num) (by norm_num) _ _ rfl]

/-- C6: the offset convention.  For every type tag, every `int` `fieldIndex`
(negative values and values above 5 included) and every list of values (of a
length a slice can have), `RemoveFilteredPolicy` and `UpdateFilteredPolicies`
build the same sparse rule and no index is out of range: the type tag is
`ptype` and field `j` is `values[j - fieldIndex]` when
`fieldIndex ≤ j < fieldIndex + len(values)` and the empty string otherwise. -/
theorem offset_convention (ptype : String) (fieldIndex : Int) (fieldValues : List String)
    (hlo : -2 ^ 63 ≤ fieldIndex) (hlen : (fieldValues.length : Int) + 5 < 2 ^ 63) :
    removeFilteredLine ptype fieldIndex fieldValues
      = some (sparseRule ptype fieldIndex fieldValues) ∧
    updateFilteredLine ptype fieldIndex fieldValues
      = removeFilteredLine ptype fieldIndex fieldValues ∧
    (sparseRule ptype fieldIndex fieldValues).Ptype = ptype ∧
    ∀ j : Nat, j < 6 →
      (sparseRule ptype fieldIndex fieldValues).fields[j]?
        = some (if fieldIndex ≤ j ∧ (j : Int) < fieldIndex + fieldValues.length
            then fieldValues.getD ((j : Int) - fieldIndex).toNat "" else "") := by
  refine ⟨removeFilteredLine_eq ptype fieldIndex fieldValues hlo hlen,
    (updateFilteredLine_eq ptype fieldIndex fieldValues hlo hlen).trans
      (removeFilteredLine_eq ptype fieldIndex fieldValues hlo hlen).symm, rfl, ?_⟩
  intro j hj
  interval_cases j <;> rfl

/-- Witness of `offset_convention`: at the negative offset `-1` the values
`x, alice, data1` put `alice` in field 0 and `data1` in field 1. -/
theorem offset_convention_witness :
    removeFilteredLine "p" (-1) ["x", "alice", "data1"]
      = some (sparseRule "p" (-1) ["x", "alice", "data1"]) ∧
    updateFilteredLine "p" (-1) ["x", "alice", "data1"]
      = removeFilteredLine "p" (-1) ["x", "alice", "data1"] ∧
    sparseRule "p" (-1) ["x", "alice", "data1"]
      = { Ptype := "p", V0 := "alice", V1 := "data1" } :=
  ⟨(offset_convention "p" (-1) ["x", "alice", "data1"] (by decide) (by decide)).1,
   (offset_convention "p" (-1) ["x", "alice", "data1"] (by decide) (by decide)).2.1,
   by decide⟩

/-! ## C7: the multi-valued filter predicate -/

/-- The loop of `LoadFilteredPolicy`, one position at a time. -/
theorem filterConds_foldl (l : List (String × List String)) :
    ∀ query : List WhereCond,
      l.foldl (fun (query : List WhereCond) (f : String × List String) =>
          match f.2 with
          | [] => query
          | [v] => query ++ [WhereCond.identEq f.1 v]
          | _ :: _ :: _ => query ++ [WhereCond.identIn f.1 f.2]) query
        = query ++ l.filterMap (fun f =>
            match f.2 with
            | [] => none
            | [v] => some (WhereCond.identEq f.1 v)
            | _ :: _ :: _ => some (WhereCond.identIn f.1 f.2)) := by
  induction l with
  | nil => intro query; simp
  | cons f l ih =>
    intro query
    rw [List.foldl_cons, ih, List.filterMap_cons]
    obtain ⟨name, vals⟩ := f
    rcases vals with _ | ⟨v, _ | ⟨w, vs⟩⟩ <;> simp

/-- The predicate the engine evaluates for the conditions of a list of named
positions. -/
theorem compileWhere_filterMap :
    ∀ l : List (String × List String), (∀ f ∈ l, (column f.1).isSome) →
      compileWhere (l.filterMap (fun f =>
            match f.2 with
            | [] => none
            | [v] => some (WhereCond.identEq f.1 v)
            | _ :: _ :: _ => some (WhereCond.identIn f.1 f.2)))
        = some (fun row => l.all (fun f =>
            decide (f.2 = []) || f.2.contains ((column f.1).getD (fun _ => "") row))) := by
  intro l
  induction l with
  | nil => intro _; rfl
  | cons f l ih =>
    intro hl
    have ih' := ih (fun g hg => hl g (List.mem_cons_of_mem _ hg))
    obtain ⟨c, hc⟩ := Option.isSome_iff_exists.mp (hl f (List.mem_cons_self _ _))
    obtain ⟨name, vals⟩ := f
    simp only at hc
    rcases vals with _ | ⟨v, _ | ⟨w, vs⟩⟩
    · simp only [List.filterMap_cons, ih']
      rfl
    · simp only [List.filterMap_cons, compileWhere, WhereCond.compile, hc, ih']
      congr 1
      funext row
      rw [List.all_cons]
      congr 1
      simp only [hc, Option.getD_some]
      rw [Bool.eq_iff_iff]
      simp
    · simp only [List.filterMap_cons, compileWhere, WhereCond.compile, hc, ih']
      congr 1
      funext row
      rw [List.all_cons]
      congr 1
      simp only [hc, Option.getD_some]
      rw [Bool.eq_iff_iff]
      simp

theorem compileWhere_filterConds (fv : Filter) :
    compileWhere (filterConds fv) = some (filterMatch fv) := by
  unfold filterConds
  rw [filterConds_foldl, List.nil_append, compileWhere_filterMap]
  · congr 1
    funext row
    simp [filterFields, column, filterMatch]
  · intro f hf
    simp only [filterFields, List.mem_cons, List.mem_singleton, List.not_mem_nil,
      or_false] at hf
    rcases hf with h | h | h | h | h | h | h <;> subst h <;> rfl

/-- C7: the multi-valued filter predicate.  For every filter,
`LoadFilteredPolicy` adds, position by position in the order `ptype, v0..v5`,
no condition for an empty candidate set, an equality for a set of one value
and an `IN` for a larger set; the conditions combine by conjunction, so the
rows loaded are the stored rows whose value belongs to the set at every
position with a non-empty set, in storage order, and the flag is set; an
engine failure is returned with nothing loaded.  With the stored rules of
`alice` and `bob`, the filter `V0 = [bob]` loads exactly the rules of
`bob`. -/
theorem filtered_load (fv : Filter) (a : Adapter) (M : Type) (parser : String → M → M)
    (model : M) (t : Table) :
    filterConds fv
      = (filterFields fv).filterMap (fun f =>
          match f.2 with
          | [] => none
          | [v] => some (WhereCond.identEq f.1 v)
          | _ :: _ :: _ => some (WhereCond.identIn f.1 f.2)) ∧
    compileWhere (filterConds fv) = some (filterMatch fv) ∧
    selectRows none (filterConds fv) t = .ok (t.filter (filterMatch fv)) ∧
    LoadFilteredPolicy parser none a model (.ptr fv) t
      = ({ a with isFilter := true },
         (t.filter (filterMatch fv)).foldl (fun m line => loadPolicyLine parser line m) model,
         none) ∧
    (∀ e, LoadFilteredPolicy parser (some e) a model (.ptr fv) t = (a, model, some e)) ∧
    selectRows none (filterConds { V0 := ["bob"] })
        [{ Id := 1, Ptype := "p", V0 := "alice", V1 := "data1", V2 := "read" },
         { Id := 2, Ptype := "p", V0 := "bob", V1 := "data2", V2 := "write" },
         { Id := 3, Ptype := "p", V0 := "bob", V1 := "data2", V2 := "read" }]
      = .ok [{ Id := 2, Ptype := "p", V0 := "bob", V1 := "data2", V2 := "write" },
             { Id := 3, Ptype := "p", V0 := "bob", V1 := "data2", V2 := "read" }] := by
  have hsel : selectRows none (filterConds fv) t = .ok (t.filter (filterMatch fv)) := by
    simp only [selectRows, compileWhere_filterConds]
  refine ⟨?_, compileWhere_filterConds fv, hsel, ?_, ?_, by rfl⟩
  · unfold filterConds
    rw [filterConds_foldl, List.nil_append]
  · simp only [LoadFilteredPolicy, hsel]
  · intro e
    simp only [LoadFilteredPolicy, selectRows]

/-! ## C8 to C10: the filtered replace -/

/-- The snapshot select of the filtered replace. -/
theorem selectRows_sparse (fault : Option StorageError) (line : CasbinRule) (t : Table) :
    selectRows fault [.raw (genFilteredWhereCondition line).1
        (genFilteredWhereCondition line).2] t
      = (match fault with
         | some e => .error e
         | none => .ok (t.filter (sparseMatch line))) := by
  cases fault with
  | some e => rfl
  | none =>
    simp only [selectRows,
      compileWhere_single _ _ (compile_genFilteredWhereCondition line), Bool.and_true]

/-- Identities assigned by the engine leave the seven positions as they are. -/
theorem assignIds_key : ∀ (rows : List CasbinRule) (n : Int),
    (assignIds n rows).map CasbinRule.key = rows.map CasbinRule.key := by
  intro rows
  induction rows with
  | nil => intro n; rfl
  | cons r rows ih =>
    intro n
    simp only [assignIds, List.map_cons, ih]
    rfl

theorem assignIds_length : ∀ (rows : List CasbinRule) (n : Int),
    (assignIds n rows).length = rows.length := by
  intro rows
  induction rows with
  | nil => intro n; rfl
  | cons r rows ih =>
    intro n
    simp only [assignIds, List.length_cons, ih]

/-- With identities that are a key of the table, deleting a selection by
identity deletes the selection. -/
theorem filter_by_id (t : Table) (p : CasbinRule → Bool)
    (hpk : (t.map CasbinRule.Id).Nodup) :
    t.filter (fun row => !((t.filter p).map CasbinRule.Id).contains row.Id)
      = t.filter (fun row => !p row) := by
  apply List.filter_congr
  intro row hrow
  congr 1
  rw [Bool.eq_iff_iff]
  simp only [List.contains_iff_exists_mem_beq, List.mem_map, List.mem_filter, beq_iff_eq]
  constructor
  · rintro ⟨i, ⟨r, ⟨hr, hp⟩, rfl⟩, hi⟩
    have := List.inj_on_of_nodup_map hpk hr hrow hi.symm
    rw [← this]
    exact hp
  · intro hp
    exact ⟨row.Id, ⟨row, ⟨hrow, hp⟩, rfl⟩, rfl⟩

/-- The method `UpdateFilteredPolicies` never panics: it is the transaction over the
sparse rule of the specification. -/
theorem UpdateFilteredPolicies_eq (fl : ReplaceFaults) (sec ptype : String)
    (newRules : List (List String)) (fieldIndex : Int) (fieldValues : List String)
    (t : Table)
    (hlo : -2 ^ 63 ≤ fieldIndex) (hlen : (fieldValues.length : Int) + 5 < 2 ^ 63) :
    UpdateFilteredPolicies fl sec ptype newRules fieldIndex fieldValues t
      = some (((runInTx fl.tx [] (updateFilteredBody fl
            (sparseRule ptype fieldIndex fieldValues)
            (newRules.map (genPolicyLine ptype))) t).1).map CasbinRule.key,
          (runInTx fl.tx [] (updateFilteredBody fl
            (sparseRule ptype fieldIndex fieldValues)
            (newRules.map (genPolicyLine ptype))) t).2.1,
          (runInTx fl.tx [] (updateFilteredBody fl
            (sparseRule ptype fieldIndex fieldValues)
            (newRules.map (genPolicyLine ptype))) t).2.2) := by
  simp only [UpdateFilteredPolicies, updateFilteredLine_eq ptype fieldIndex fieldValues hlo hlen]
  rfl

/-- A failing body is rolled back. -/
theorem runInTx_error {σ : Type} (f : TxFaults) (init s : σ)
    (body : Table → σ × Except StorageError Table) (t : Table) (e : StorageError)
    (hb : f.beginErr = none) (h : body t = (s, .error e)) :
    runInTx f init body t = (s, some e, t) := by
  simp only [runInTx, hb, h]

/-- Whatever `runInTx` reports as an error, the table is the one before. -/
theorem runInTx_rollback {σ : Type} (f : TxFaults) (init : σ)
    (body : Table → σ × Except StorageError Table) (t : Table)
    (h : (runInTx f init body t).2.1 ≠ none) : (runInTx f init body t).2.2 = t := by
  unfold runInTx at h ⊢
  cases hb : f.beginErr with
  | some e => rfl
  | none =>
    rcases hbody : body t with ⟨s, r⟩
    cases r with
    | error e => rfl
    | ok t' =>
      cases hc : f.commitErr with
      | some e => rfl
      | none =>
        exfalso
        simp only [hb, hbody, hc] at h
        exact h rfl

/-- A call of `runInTx` without error committed the table of its body. -/
theorem runInTx_ok {σ : Type} (f : TxFaults) (init : σ)
    (body : Table → σ × Except StorageError Table) (t : Table)
    (h : (runInTx f init body t).2.1 = none) :
    ∃ s t', body t = (s, .ok t') ∧ runInTx f init body t = (s, none, t') := by
  unfold runInTx at h ⊢
  cases hb : f.beginErr with
  | some e => simp [hb] at h
  | none =>
    rcases hbody : body t with ⟨s, r⟩
    cases r with
    | error e => simp [hb, hbody] at h
    | ok t' =>
      cases hc : f.commitErr with
      | some e => simp [hb, hbody, hc] at h
      | none => exact ⟨s, t', rfl, rfl⟩

/-- What a successful body of the filtered replace did. -/
theorem updateFilteredBody_ok (fl : ReplaceFaults) (line : CasbinRule)
    (newR : List CasbinRule) (tx : Table) (s : List CasbinRule) (tx2 : Table)
    (h : updateFilteredBody fl line newR tx = (s, .ok tx2)) :
    s = tx.filter (sparseMatch line) ∧
    deleteByPK fl.deleteErr s tx
      = .ok (tx.filter (fun row => !(s.map CasbinRule.Id).contains row.Id)) ∧
    tx2 = tx.filter (fun row => !(s.map CasbinRule.Id).contains row.Id)
      ++ assignIds (nextId (tx.filter (fun row => !(s.map CasbinRule.Id).contains row.Id)))
          newR := by
  simp only [updateFilteredBody, selectRows_sparse] at h
  cases hs : fl.selectErr with
  | some e => simp [hs] at h
  | none =>
    simp only [hs] at h
    cases hd : fl.deleteErr with
    | some e => simp [hd, deleteByPK] at h
    | none =>
      simp only [hd, deleteByPK] at h
      cases hi : fl.insertErr with
      | some e => simp [hi, insertRows] at h
      | none =>
        simp only [hi, insertRows] at h
        split at h
        · rename_i e heq
          simp at h
        · rename_i tx2' heq
          split at heq
          · injection heq with heq
            injection h with h1 h2
            injection h2 with h2
            subst h1
            refine ⟨rfl, rfl, ?_⟩
            rw [← h2, ← heq]
          · cases heq

/-- The value `runInTx` yields for the captured variables. -/
theorem runInTx_fst {σ : Type} (f : TxFaults) (init : σ)
    (body : Table → σ × Except StorageError Table) (t : Table) :
    (runInTx f init body t).1
      = (match f.beginErr with
         | some _ => init
         | none => (body t).1) := by
  unfold runInTx
  cases hb : f.beginErr with
  | some e => rfl
  | none =>
    rcases hbody : body t with ⟨s, r⟩
    cases r with
    | error e => rfl
    | ok t' =>
      cases hc : f.commitErr with
      | some e => rfl
      | none => rfl

/-- The snapshot the body of the filtered replace leaves in `oldR`. -/
theorem updateFilteredBody_fst (fl : ReplaceFaults) (line : CasbinRule)
    (newR : List CasbinRule) (tx : Table) :
    (updateFilteredBody fl line newR tx).1
      = (match fl.selectErr with
         | some _ => []
         | none => tx.filter (sparseMatch line)) := by
  simp only [updateFilteredBody, selectRows_sparse]
  cases hs : fl.selectErr with
  | some e => rfl
  | none =>
    simp only
    split
    · rfl
    · split <;> rfl

/-- C8: filtered replace atomicity.  For every table and every call of
`UpdateFilteredPolicies` the call returns, and whenever it returns an error
the table afterwards is the table before the call.  With the transaction
begun, a failing snapshot select, a failing delete of the snapshotted rows
and a failing insert of the new rows (a new row that violates the uniqueness
of `(ptype, v0..v5)` included) each make the call return that error and leave
the table unchanged.  Replacing `bob, data2, write` by `bob, data2, read`
while `bob, data2, read` is stored fails on the uniqueness index and leaves
both rows in place. -/
theorem filtered_replace_atomicity (fl : ReplaceFaults) (sec ptype : String)
    (newRules : List (List String)) (fieldIndex : Int) (fieldValues : List String)
    (t : Table)
    (hlo : -2 ^ 63 ≤ fieldIndex) (hlen : (fieldValues.length : Int) + 5 < 2 ^ 63) :
    ∃ old err t',
      UpdateFilteredPolicies fl sec ptype newRules fieldIndex fieldValues t
        = some (old, err, t') ∧
      (err ≠ none → t' = t) ∧
      (fl.tx.beginErr = none →
        ∀ e, selectRows fl.selectErr
            [.raw (genFilteredWhereCondition (sparseRule ptype fieldIndex fieldValues)).1
              (genFilteredWhereCondition (sparseRule ptype fieldIndex fieldValues)).2] t
            = .error e →
          err = some e ∧ t' = t) ∧
      (fl.tx.beginErr = none →
        ∀ e oldR, selectRows fl.selectErr
            [.raw (genFilteredWhereCondition (sparseRule ptype fieldIndex fieldValues)).1
              (genFilteredWhereCondition (sparseRule ptype fieldIndex fieldValues)).2] t
            = .ok oldR →
          deleteByPK fl.deleteErr oldR t = .error e →
          err = some e ∧ t' = t) ∧
      (fl.tx.beginErr = none →
        ∀ e oldR tx1, selectRows fl.selectErr
            [.raw (genFilteredWhereCondition (sparseRule ptype fieldIndex fieldValues)).1
              (genFilteredWhereCondition (sparseRule ptype fieldIndex fieldValues)).2] t
            = .ok oldR →
          deleteByPK fl.deleteErr oldR t = .ok tx1 →
          insertRows fl.insertErr (newRules.map (genPolicyLine ptype)) tx1 = .error e →
          err = some e ∧ t' = t) ∧
      UpdateFilteredPolicies {} "p" "p" [["bob", "data2", "read"]] 0 ["bob", "data2", "write"]
          [{ Id := 1, Ptype := "p", V0 := "bob", V1 := "data2", V2 := "write" },
           { Id := 2, Ptype := "p", V0 := "bob", V1 := "data2", V2 := "read" }]
        = some ([["p", "bob", "data2", "write", "", "", ""]], some uniqueError,
            [{ Id := 1, Ptype := "p", V0 := "bob", V1 := "data2", V2 := "write" },
             { Id := 2, Ptype := "p", V0 := "bob", V1 := "data2", V2 := "read" }]) := by
  refine ⟨_, _, _, UpdateFilteredPolicies_eq fl sec ptype newRules fieldIndex fieldValues t
    hlo hlen, runInTx_rollback _ _ _ _, ?_, ?_, ?_, by decide⟩
  · intro hb e hs
    have hbody : updateFilteredBody fl (sparseRule ptype fieldIndex fieldValues)
        (newRules.map (genPolicyLine ptype)) t = ([], .error e) := by
      simp only [updateFilteredBody, hs]
    rw [runInTx_error _ _ _ _ _ _ hb hbody]
    exact ⟨rfl, rfl⟩
  · intro hb e oldR hs hd
    have hbody : updateFilteredBody fl (sparseRule ptype fieldIndex fieldValues)
        (newRules.map (genPolicyLine ptype)) t = (oldR, .error e) := by
      simp only [updateFilteredBody, hs, hd]
    rw [runInTx_error _ _ _ _ _ _ hb hbody]
    exact ⟨rfl, rfl⟩
  · intro hb e oldR tx1 hs hd hi
    have hbody : updateFilteredBody fl (sparseRule ptype fieldIndex fieldValues)
        (newRules.map (genPolicyLine ptype)) t = (oldR, .error e) := by
      simp only [updateFilteredBody, hs, hd, hi]
    rw [runInTx_error _ _ _ _ _ _ hb hbody]
    exact ⟨rfl, rfl⟩

/-- Witness of `filtered_replace_atomicity`: an engine failure of the insert
while `bob, data2, write` is replaced. -/
theorem filtered_replace_atomicity_witness :
    ∃ old err t',
      UpdateFilteredPolicies { insertErr := some "disk full" } "p" "p"
          [["bob", "data2", "read"]] 0 ["bob", "data2", "write"]
          [{ Id := 1, Ptype := "p", V0 := "bob", V1 := "data2", V2 := "write" }]
        = some (old, err, t') ∧
      err = some "disk full" ∧
      t' = [{ Id := 1, Ptype := "p", V0 := "bob", V1 := "data2", V2 := "write" }] := by
  obtain ⟨old, err, t', h, _, _, _, hins, _⟩ :=
    filtered_replace_atomicity { insertErr := some "disk full" } "p" "p"
      [["bob", "data2", "read"]] 0 ["bob", "data2", "write"]
      [{ Id := 1, Ptype := "p", V0 := "bob", V1 := "data2", V2 := "write" }]
      (by decide) (by decide)
  have := hins rfl "disk full"
    [{ Id := 1, Ptype := "p", V0 := "bob", V1 := "data2", V2 := "write" }] [] rfl rfl rfl
  exact ⟨old, err, t', h, this.1, this.2⟩

/-- C9: filtered replace effect.  For every table (identities being its
primary key), when `UpdateFilteredPolicies` succeeds, the delete by identity
of the snapshot removes exactly the rows that matched the sparse predicate
before the call, every row that did not match stays as it was and in place,
and the table afterwards is those rows followed by one new row per rule of
`newRules`, carrying the type tag and fields of `genPolicyLine ptype r` and a
fresh identity. -/
theorem filtered_replace_effect (fl : ReplaceFaults) (sec ptype : String)
    (newRules : List (List String)) (fieldIndex : Int) (fieldValues : List String)
    (t : Table) (old : List (List String)) (t' : Table)
    (hlo : -2 ^ 63 ≤ fieldIndex) (hlen : (fieldValues.length : Int) + 5 < 2 ^ 63)
    (hpk : (t.map CasbinRule.Id).Nodup)
    (h : UpdateFilteredPolicies fl sec ptype newRules fieldIndex fieldValues t
      = some (old, none, t')) :
    deleteByPK fl.deleteErr (t.filter (sparseMatch (sparseRule ptype fieldIndex fieldValues))) t
      = .ok (t.filter (fun row => !sparseMatch (sparseRule ptype fieldIndex fieldValues) row)) ∧
    (∃ inserted : List CasbinRule,
      t' = t.filter (fun row => !sparseMatch (sparseRule ptype fieldIndex fieldValues) row)
            ++ inserted ∧
      inserted.length = newRules.length ∧
      inserted.map CasbinRule.key = newRules.map (fun r => (genPolicyLine ptype r).key)) ∧
    t'.map CasbinRule.key
      = (t.filter (fun row => !sparseMatch (sparseRule ptype fieldIndex fieldValues) row)).map
          CasbinRule.key
        ++ newRules.map (fun r => (genPolicyLine ptype r).key) := by
  rw [UpdateFilteredPolicies_eq fl sec ptype newRules fieldIndex fieldValues t hlo hlen] at h
  injection h with h
  injection h with _ h
  injection h with herr ht
  obtain ⟨s, tx2, hbody, hrun⟩ := runInTx_ok _ _ _ _ herr
  rw [hrun] at ht
  simp only at ht
  subst ht
  obtain ⟨hs, hdel, htx2⟩ := updateFilteredBody_ok _ _ _ _ _ _ hbody
  rw [hs, filter_by_id t _ hpk] at htx2
  rw [hs, filter_by_id t _ hpk] at hdel
  refine ⟨hdel, ⟨_, htx2, ?_, ?_⟩, ?_⟩
  · rw [assignIds_length, List.length_map]
  · rw [assignIds_key, List.map_map]
    rfl
  · rw [htx2, List.map_append, assignIds_key, List.map_map]
    rfl

/-- Witness of `filtered_replace_effect`: `bob, data2, write` is replaced by
`bob, data2, read` in the policy of the tests. -/
theorem filtered_replace_effect_witness :
    UpdateFilteredPolicies {} "p" "p" [["bob", "data2", "read"]] 0 ["bob", "data2", "write"]
        [{ Id := 1, Ptype := "p", V0 := "alice", V1 := "data1", V2 := "read" },
         { Id := 2, Ptype := "p", V0 := "bob", V1 := "data2", V2 := "write" },
         { Id := 3, Ptype := "p", V0 := "data2_admin", V1 := "data2", V2 := "read" }]
      = some ([["p", "bob", "data2", "write", "", "", ""]], none,
          [{ Id := 1, Ptype := "p", V0 := "alice", V1 := "data1", V2 := "read" },
           { Id := 3, Ptype := "p", V0 := "data2_admin", V1 := "data2", V2 := "read" },
           { Id := 4, Ptype := "p", V0 := "bob", V1 := "data2", V2 := "read" }]) ∧
    List.map CasbinRule.key
        [{ Id := 1, Ptype := "p", V0 := "alice", V1 := "data1", V2 := "read" },
         { Id := 3, Ptype := "p", V0 := "data2_admin", V1 := "data2", V2 := "read" },
         { Id := 4, Ptype := "p", V0 := "bob", V1 := "data2", V2 := "read" }]
      = (List.filter (fun row => !sparseMatch (sparseRule "p" 0 ["bob", "data2", "write"]) row)
          [{ Id := 1, Ptype := "p", V0 := "alice", V1 := "data1", V2 := "read" },
           { Id := 2, Ptype := "p", V0 := "bob", V1 := "data2", V2 := "write" },
           { Id := 3, Ptype := "p", V0 := "data2_admin", V1 := "data2", V2 := "read" }]).map
          CasbinRule.key
        ++ [["bob", "data2", "read"]].map (fun r => (genPolicyLine "p" r).key) :=
  ⟨by decide,
   (filtered_replace_effect {} "p" "p" [["bob", "data2", "read"]] 0 ["bob", "data2", "write"]
      [{ Id := 1, Ptype := "p", V0 := "alice", V1 := "data1", V2 := "read" },
       { Id := 2, Ptype := "p", V0 := "bob", V1 := "data2", V2 := "write" },
       { Id := 3, Ptype := "p", V0 := "data2_admin", V1 := "data2", V2 := "read" }]
      [["p", "bob", "data2", "write", "", "", ""]]
      [{ Id := 1, Ptype := "p", V0 := "alice", V1 := "data1", V2 := "read" },
       { Id := 3, Ptype := "p", V0 := "data2_admin", V1 := "data2", V2 := "read" },
       { Id := 4, Ptype := "p", V0 := "bob", V1 := "data2", V2 := "read" }]
      (by decide) (by decide) (by decide) (by decide)).2.2⟩

/-- C10, counterexample: the entry returned for the snapshotted row
`(p, bob, data2, write)` is the seven strings
`[p, bob, data2, write, "", "", ""]`: it starts with the type tag, keeps the
empty trailing fields and has more than 6 strings, so it is neither the rule
`[bob, data2, write]` nor the tokens `p, bob, data2, write` that
`loadPolicyLine` recovers from the row. -/
theorem preimage_not_decoded :
    UpdateFilteredPolicies {} "p" "p" [["bob", "data2", "read"]] 0 ["bob", "data2", "write"]
        [{ Id := 1, Ptype := "p", V0 := "alice", V1 := "data1", V2 := "read" },
         { Id := 2, Ptype := "p", V0 := "bob", V1 := "data2", V2 := "write" }]
      = some ([["p", "bob", "data2", "write", "", "", ""]], none,
          [{ Id := 1, Ptype := "p", V0 := "alice", V1 := "data1", V2 := "read" },
           { Id := 2, Ptype := "p", V0 := "bob", V1 := "data2", V2 := "read" }]) ∧
    loadPolicyLineText { Id := 2, Ptype := "p", V0 := "bob", V1 := "data2", V2 := "write" }
      = stringsJoin ["p", "bob", "data2", "write"] ", " ∧
    (["p", "bob", "data2", "write", "", "", ""] : List String) ≠ ["bob", "data2", "write"] ∧
    (["p", "bob", "data2", "write", "", "", ""] : List String)
      ≠ ["p", "bob", "data2", "write"] ∧
    ¬ (["p", "bob", "data2", "write", "", "", ""] : List String).length ≤ 6 ∧
    stringsJoin ["p", "bob", "data2", "write", "", "", ""] ", "
      ≠ loadPolicyLineText
          { Id := 2, Ptype := "p", V0 := "bob", V1 := "data2", V2 := "write" } := by
  refine ⟨by decide, by decide, by decide, by decide, by decide, by decide⟩

/-- C10, amended: `UpdateFilteredPolicies` returns one entry per snapshotted
row, in snapshot order, and each entry is the seven strings
`[ptype, v0, v1, v2, v3, v4, v5]` of that row, untrimmed: the type tag first,
the empty trailing fields kept.  The snapshot is the list of rows matching
the sparse predicate, in storage order, once the select has run, and is
empty when the transaction did not begin or the select failed. -/
theorem preimage_entries (fl : ReplaceFaults) (sec ptype : String)
    (newRules : List (List String)) (fieldIndex : Int) (fieldValues : List String)
    (t : Table)
    (hlo : -2 ^ 63 ≤ fieldIndex) (hlen : (fieldValues.length : Int) + 5 < 2 ^ 63) :
    ∃ snapshot err t',
      UpdateFilteredPolicies fl sec ptype newRules fieldIndex fieldValues t
        = some (snapshot.map (fun row =>
            [row.Ptype, row.V0, row.V1, row.V2, row.V3, row.V4, row.V5]), err, t') ∧
      snapshot = (match fl.tx.beginErr, fl.selectErr with
        | none, none => t.filter (sparseMatch (sparseRule ptype fieldIndex fieldValues))
        | _, _ => []) ∧
      ∀ entry ∈ snapshot.map (fun row =>
          [row.Ptype, row.V0, row.V1, row.V2, row.V3, row.V4, row.V5]), entry.length = 7 := by
  refine ⟨_, _, _, UpdateFilteredPolicies_eq fl sec ptype newRules fieldIndex fieldValues t
    hlo hlen, ?_, ?_⟩
  · rw [runInTx_fst, updateFilteredBody_fst]
    cases fl.tx.beginErr <;> cases fl.selectErr <;> rfl
  · intro entry hentry
    obtain ⟨row, _, rfl⟩ := List.mem_map.mp hentry
    rfl

/-- Witness of `preimage_entries`: the rule `bob, data2, write` comes back as
seven strings. -/
theorem preimage_entries_witness :
    ∃ (snapshot : List CasbinRule) (err : Option StorageError) (t' : Table),
      UpdateFilteredPolicies {} "p" "p" [["bob", "data2", "read"]] 0
          ["bob", "data2", "write"]
          [{ Id := 7, Ptype := "p", V0 := "bob", V1 := "data2", V2 := "write" }]
        = some (snapshot.map (fun row =>
            [row.Ptype, row.V0, row.V1, row.V2, row.V3, row.V4, row.V5]), err, t') ∧
      snapshot = (match ({} : ReplaceFaults).tx.beginErr, ({} : ReplaceFaults).selectErr with
        | none, none =>
          List.filter (sparseMatch (sparseRule "p" 0 ["bob", "data2", "write"]))
            [{ Id := 7, Ptype := "p", V0 := "bob", V1 := "data2", V2 := "write" }]
        | _, _ => []) ∧
      ∀ entry ∈ snapshot.map (fun row =>
          [row.Ptype, row.V0, row.V1, row.V2, row.V3, row.V4, row.V5]), entry.length = 7 :=
  preimage_entries {} "p" "p" [["bob", "data2", "read"]] 0 ["bob", "data2", "write"]
    [{ Id := 7, Ptype := "p", V0 := "bob", V1 := "data2", V2 := "write" }]
    (by decide) (by decide)

/-! ## C11: save replaces wholesale -/

/-- The inner loop of `SavePolicy`, as a map. -/
theorem policy_foldl (ptype : String) (rules : List (List String)) :
    ∀ lines : List CasbinRule,
      rules.foldl (fun lines rule => lines ++ [genPolicyLine ptype rule]) lines
        = lines ++ rules.map (genPolicyLine ptype) := by
  induction rules with
  | nil => intro lines; simp
  | cons r rules ih =>
    intro lines
    rw [List.foldl_cons, ih]
    simp

/-- The rows one section adds. -/
theorem appendSection_eq (sec : AssertionMap) :
    ∀ lines : List CasbinRule,
      appendSection lines sec
        = lines ++ sec.flatMap (fun pa => pa.2.Policy.map (genPolicyLine pa.1)) := by
  induction sec with
  | nil => intro lines; simp [appendSection]
  | cons pa sec ih =>
    intro lines
    have h := ih (lines ++ pa.2.Policy.map (genPolicyLine pa.1))
    simp only [appendSection, List.foldl_cons, policy_foldl] at h ⊢
    rw [h]
    simp

/-- The rows `SavePolicy` collects are the rows of the rules of the model. -/
theorem savePolicy_lines (model : Model) :
    appendSection (appendSection [] model.p) model.g
      = (modelRules model).map (fun pr => genPolicyLine pr.1 pr.2) := by
  rw [appendSection_eq, appendSection_eq]
  simp [modelRules, List.flatMap_append, List.map_flatMap, Function.comp_def]

/-- After the drop and the create the table is empty, whatever it was. -/
theorem SavePolicy_eq (model : Model) (db : Database) :
    SavePolicy {} model db
      = (if ((modelRules model).map (fun pr => genPolicyLine pr.1 pr.2)).length = 0 then
          (none, some [])
        else if ((assignIds 1 ((modelRules model).map
            (fun pr => genPolicyLine pr.1 pr.2))).map CasbinRule.key).Nodup then
          (none, some (assignIds 1 ((modelRules model).map
            (fun pr => genPolicyLine pr.1 pr.2))))
        else (some uniqueError, some [])) := by
  have hn : nextId [] = 1 := rfl
  simp only [SavePolicy, dropTable, createTable, savePolicy_lines, insertInto, insertRows,
    Option.getD_none, List.nil_append, hn]
  by_cases h0 : ((modelRules model).map (fun pr => genPolicyLine pr.1 pr.2)).length = 0
  · rw [if_pos h0, if_pos h0]
  · rw [if_neg h0, if_neg h0]
    by_cases hd : ((assignIds 1 ((modelRules model).map
        (fun pr => genPolicyLine pr.1 pr.2))).map CasbinRule.key).Nodup
    · rw [if_pos hd, if_pos hd]
    · rw [if_neg hd, if_neg hd]

/-- The line text of a row does not depend on its identity. -/
theorem assignIds_text : ∀ (rows : List CasbinRule) (n : Int),
    (assignIds n rows).map loadPolicyLineText = rows.map loadPolicyLineText := by
  intro rows
  induction rows with
  | nil => intro n; rfl
  | cons r rows ih =>
    intro n
    simp only [assignIds, List.map_cons, ih]
    rfl

/-- A load hands the parser the line text of every row, in storage order. -/
theorem LoadPolicy_eq {M : Type} (parser : String → M → M) (model : M) (t : Table) :
    LoadPolicy parser none model (some t)
      = ((t.map loadPolicyLineText).foldl (fun m text => parser text m) model, none) := by
  simp only [LoadPolicy, selectRows, compileWhere, List.filter_true, List.foldl_map]
  rfl

/-- C11, counterexample: a save, a second save and a load do not give back
exactly the rules of the second model for every model.  (a) The rule
`[alice, data1, ""]` is saved and loaded as the line `p, alice, data1`, the
line of the shorter rule `[alice, data1]`, so the two models load alike.
(b) A model that lists the rule `[alice, data1, read]` twice makes the insert
fail on the uniqueness index after the table was dropped and created again:
the save returns the error, the table is empty and the load finds no rule. -/
theorem save_load_not_exact :
    LoadPolicy (fun s (m : List String) => m ++ [s]) none []
        (SavePolicy {} { p := [("p", { Policy := [["alice", "data1", ""]] })] }
          (SavePolicy {} { p := [("p", { Policy := [["bob", "data2", "write"]] })] }
            (some [])).2).2
      = (["p, alice, data1"], none) ∧
    LoadPolicy (fun s (m : List String) => m ++ [s]) none []
        (SavePolicy {} { p := [("p", { Policy := [["alice", "data1"]] })] }
          (SavePolicy {} { p := [("p", { Policy := [["bob", "data2", "write"]] })] }
            (some [])).2).2
      = (["p, alice, data1"], none) ∧
    modelRules { p := [("p", { Policy := [["alice", "data1", ""]] })] }
      ≠ modelRules { p := [("p", { Policy := [["alice", "data1"]] })] } ∧
    "p, alice, data1" ≠ stringsJoin ["p", "alice", "data1", ""] ", " ∧
    SavePolicy {}
        { p := [("p", { Policy := [["alice", "data1", "read"], ["alice", "data1", "read"]] })] }
        (SavePolicy {} { p := [("p", { Policy := [["bob", "data2", "write"]] })] }
          (some [])).2
      = (some uniqueError, some []) ∧
    LoadPolicy (fun s (m : List String) => m ++ [s]) none []
        (SavePolicy {}
          { p := [("p", { Policy := [["alice", "data1", "read"], ["alice", "data1", "read"]] })] }
          (SavePolicy {} { p := [("p", { Policy := [["bob", "data2", "write"]] })] }
            (some [])).2).2
      = ([], none) := by
  refine ⟨by decide, by decide, by decide, by decide, by decide, by decide⟩

/-- C11, amended: for every pair of policy models and whatever the first
save did to the database, when the rows that encode the rules of the second
model are pairwise distinct the second save (its statements not failing)
succeeds and leaves exactly one row per rule of every policy type of the
sections `p` and `g` of the second model, in that order, with the type tag
and fields of `genPolicyLine ptype rule`, and no row of the first model; the
load then hands the parser the line text of each of these rows, which for a
rule of arity 1 to 6 with non-empty fields is the type tag and the rule
joined by `", "`; a second model with zero rules leaves an empty table. -/
theorem save_replaces_wholesale (f1 : SaveFaults) (m1 m2 : Model) (db0 : Database)
    (M : Type) (parser : String → M → M) (model : M)
    (hdistinct : ((modelRules m2).map (fun pr => (genPolicyLine pr.1 pr.2).key)).Nodup) :
    ∃ t : Table,
      SavePolicy {} m2 (SavePolicy f1 m1 db0).2 = (none, some t) ∧
      t.map CasbinRule.key = (modelRules m2).map (fun pr => (genPolicyLine pr.1 pr.2).key) ∧
      LoadPolicy parser none model (some t)
        = ((modelRules m2).foldl
            (fun m pr => parser (loadPolicyLineText (genPolicyLine pr.1 pr.2)) m) model,
           none) ∧
      (∀ pr ∈ modelRules m2, 1 ≤ pr.2.length → pr.2.length ≤ 6 → (∀ f ∈ pr.2, f ≠ "") →
        loadPolicyLineText (genPolicyLine pr.1 pr.2) = stringsJoin (pr.1 :: pr.2) ", ") ∧
      (modelRules m2 = [] → t = []) := by
  have hkey : (assignIds 1 ((modelRules m2).map (fun pr => genPolicyLine pr.1 pr.2))).map
      CasbinRule.key = (modelRules m2).map (fun pr => (genPolicyLine pr.1 pr.2).key) := by
    rw [assignIds_key, List.map_map]
    rfl
  have htext : (assignIds 1 ((modelRules m2).map (fun pr => genPolicyLine pr.1 pr.2))).map
      loadPolicyLineText
      = (modelRules m2).map (fun pr => loadPolicyLineText (genPolicyLine pr.1 pr.2)) := by
    rw [assignIds_text, List.map_map]
    rfl
  refine ⟨assignIds 1 ((modelRules m2).map (fun pr => genPolicyLine pr.1 pr.2)), ?_, hkey,
    ?_, ?_, ?_⟩
  · rw [SavePolicy_eq]
    by_cases h0 : ((modelRules m2).map (fun pr => genPolicyLine pr.1 pr.2)).length = 0
    · rw [if_pos h0, List.length_eq_zero.mp h0]
      rfl
    · rw [if_neg h0, if_pos (by rw [hkey]; exact hdistinct)]
  · rw [LoadPolicy_eq, htext, List.foldl_map]
  · intro pr _ h1 h6 hne
    exact loadPolicyLineText_genPolicyLine pr.1 pr.2 h1 h6 hne
  · intro h
    rw [h]
    rfl

/-- Witness of `save_replaces_wholesale`: the policy of the tests replaces a
model with one other rule. -/
theorem save_replaces_wholesale_witness :
    ∃ t : Table,
      SavePolicy {}
          { p := [("p", { Policy := [["alice", "data1", "read"], ["bob", "data2", "write"]] })],
            g := [("g", { Policy := [["alice", "data2_admin"]] })] }
          (SavePolicy {} { p := [("p", { Policy := [["carol", "data3", "read"]] })] }
            (some [])).2
        = (none, some t) ∧
      t.map CasbinRule.key
        = [["p", "alice", "data1", "read", "", "", ""],
           ["p", "bob", "data2", "write", "", "", ""],
           ["g", "alice", "data2_admin", "", "", "", ""]] := by
  obtain ⟨t, h1, h2, _⟩ := save_replaces_wholesale {}
    { p := [("p", { Policy := [["carol", "data3", "read"]] })] }
    { p := [("p", { Policy := [["alice", "data1", "read"], ["bob", "data2", "write"]] })],
      g := [("g", { Policy := [["alice", "data2_admin"]] })] }
    (some []) Unit (fun _ m => m) () (by decide)
  exact ⟨t, h1, h2.trans (by decide)⟩

/-! ## C12: the partial-view flag -/

/-- No call turns the flag off: after one call it is on when it was on. -/
theorem step_keeps_flag {M : Type} (parser : String → M → M) (op : Op M)
    (s : Adapter × Database) (h : s.1.isFilter = true) :
    (step parser op s).1.isFilter = true := by
  obtain ⟨a, db⟩ := s
  cases op with
  | loadFilteredPolicy fault model filter =>
    cases db with
    | none => exact h
    | some t =>
      simp only [step, LoadFilteredPolicy]
      cases filter with
      | other => exact h
      | ptr fv =>
        simp only
        split
        · exact h
        · rfl
  | _ => exact h

/-- C12: the partial-view flag.  A newly constructed adapter reports
`IsFiltered() = false`; a `LoadFilteredPolicy` that returns no error sets the
flag; one that returns an error leaves the adapter as it was; and once the
flag is on it stays on: after any sequence of calls of `LoadPolicy`,
`SavePolicy`, the add, remove and update operations and `LoadFilteredPolicy`,
failing or not, the adapter still reports `IsFiltered() = true`, as after a
filtered load followed by a load, a save and a failing filtered load. -/
theorem partial_view_flag (M : Type) (parser : String → M → M) :
    (∀ pingErr createErr tableName db a err db',
      NewAdapterContext pingErr createErr tableName db = (some a, err, db') →
      a.IsFiltered = false) ∧
    (∀ fault a model filter t,
      (LoadFilteredPolicy parser fault a model filter t).2.2 = none →
      (LoadFilteredPolicy parser fault a model filter t).1.IsFiltered = true) ∧
    (∀ fault a model filter t,
      (LoadFilteredPolicy parser fault a model filter t).2.2 ≠ none →
      (LoadFilteredPolicy parser fault a model filter t).1 = a) ∧
    (∀ (ops : List (Op M)) (s : Adapter × Database),
      s.1.IsFiltered = true → (run parser ops s).1.IsFiltered = true) ∧
    (run (fun s (m : List String) => m ++ [s])
        [.loadFilteredPolicy none [] (.ptr { V0 := ["alice"] }),
         .loadPolicy none [],
         .savePolicy {} { p := [("p", { Policy := [["bob", "data2", "write"]] })] },
         .loadFilteredPolicy (some "connection lost") [] (.ptr { V0 := ["bob"] })]
        ({}, some [{ Id := 1, Ptype := "p", V0 := "alice", V1 := "data1", V2 := "read" }])).1.IsFiltered
      = true := by
  refine ⟨?_, ?_, ?_, ?_, by decide⟩
  · intro pingErr createErr tableName db a err db' h
    unfold NewAdapterContext at h
    cases pingErr with
    | some e => simp at h
    | none =>
      cases createErr with
      | some e => simp [createTable] at h
      | none =>
        simp only [createTable] at h
        injection h with ha _
        injection ha with ha
        rw [← ha]
        cases tableName <;> rfl
  · intro fault a model filter t h
    unfold LoadFilteredPolicy at h ⊢
    cases filter with
    | other => simp at h
    | ptr fv =>
      simp only at h ⊢
      split
      · rename_i e heq
        simp [heq] at h
      · rfl
  · intro fault a model filter t h
    unfold LoadFilteredPolicy at h ⊢
    cases filter with
    | other => rfl
    | ptr fv =>
      simp only at h ⊢
      split
      · rfl
      · rename_i lines heq
        simp [heq] at h
  · intro ops
    induction ops with
    | nil => intro s h; exact h
    | cons op ops ih =>
      intro s h
      exact ih _ (step_keeps_flag parser op s h)

/-! ## C13: no guard on an unconstrained filter -/

/-- C13, counterexample: `LoadFilteredPolicy` has no guard on the type tag.
With all seven candidate sets empty it adds no condition, returns no error,
hands every stored line to the parser and sets the flag; a filter without a
type tag, `V0 = [alice]`, is accepted as well. -/
theorem unconstrained_filter_loads_all :
    filterConds {} = [] ∧
    LoadFilteredPolicy (fun s (m : List String) => m ++ [s]) none {} [] (.ptr {})
        [{ Id := 1, Ptype := "p", V0 := "alice", V1 := "data1", V2 := "read" },
         { Id := 2, Ptype := "p", V0 := "bob", V1 := "data2", V2 := "write" },
         { Id := 3, Ptype := "g", V0 := "alice", V1 := "data2_admin" }]
      = ({ isFilter := true },
         ["p, alice, data1, read", "p, bob, data2, write", "g, alice, data2_admin"], none) ∧
    LoadFilteredPolicy (fun s (m : List String) => m ++ [s]) none {} []
        (.ptr { V0 := ["alice"] })
        [{ Id := 1, Ptype := "p", V0 := "alice", V1 := "data1", V2 := "read" },
         { Id := 2, Ptype := "p", V0 := "bob", V1 := "data2", V2 := "write" },
         { Id := 3, Ptype := "g", V0 := "alice", V1 := "data2_admin" }]
      = ({ isFilter := true }, ["p, alice, data1, read", "g, alice, data2_admin"], none) := by
  refine ⟨by decide, by decide, by decide⟩

/-- C13, amended: `LoadFilteredPolicy` does not require the type tag.  For
every filter whose set of type tags is empty the select runs, constrained
only by the positions with a non-empty set, so rows of every type tag are
loaded; and when all seven sets are empty no condition is added at all: every
stored row is loaded, no error is returned and the flag is set. -/
theorem unconstrained_filter_not_guarded (fv : Filter) (a : Adapter) (M : Type)
    (parser : String → M → M) (model : M) (t : Table) (hp : fv.Ptype = []) :
    LoadFilteredPolicy parser none a model (.ptr fv) t
      = ({ a with isFilter := true },
         (t.filter (filterMatch fv)).foldl (fun m line => loadPolicyLine parser line m) model,
         none) ∧
    (∀ (row : CasbinRule) (ptype : String),
      filterMatch fv { row with Ptype := ptype } = filterMatch fv row) ∧
    (fv.V0 = [] → fv.V1 = [] → fv.V2 = [] → fv.V3 = [] → fv.V4 = [] → fv.V5 = [] →
      filterConds fv = [] ∧
      LoadFilteredPolicy parser none a model (.ptr fv) t
        = ({ a with isFilter := true },
           t.foldl (fun m line => loadPolicyLine parser line m) model, none)) := by
  have hload : LoadFilteredPolicy parser none a model (.ptr fv) t
      = ({ a with isFilter := true },
         (t.filter (filterMatch fv)).foldl (fun m line => loadPolicyLine parser line m) model,
         none) := by
    simp only [LoadFilteredPolicy, selectRows, compileWhere_filterConds]
  refine ⟨hload, ?_, ?_⟩
  · intro row ptype
    simp [filterMatch, hp]
  · intro h0 h1 h2 h3 h4 h5
    obtain ⟨pt, v0, v1, v2, v3, v4, v5⟩ := fv
    simp only at hp h0 h1 h2 h3 h4 h5
    subst hp h0 h1 h2 h3 h4 h5
    refine ⟨rfl, ?_⟩
    rw [hload]
    have hall : List.filter (filterMatch { }) t = t := by
      apply List.filter_eq_self.mpr
      intro row _
      simp [filterMatch]
    rw [hall]

/-- Witness of `unconstrained_filter_not_guarded`: the empty filter on a
table of two rows. -/
theorem unconstrained_filter_not_guarded_witness :
    LoadFilteredPolicy (fun s (m : List String) => m ++ [s]) none {} [] (.ptr {})
        [{ Id := 1, Ptype := "p", V0 := "alice", V1 := "data1", V2 := "read" },
         { Id := 2, Ptype := "g", V0 := "alice", V1 := "data2_admin" }]
      = ({ isFilter := true },
         List.foldl (fun m line => loadPolicyLine (fun s (m : List String) => m ++ [s]) line m)
           []
           [{ Id := 1, Ptype := "p", V0 := "alice", V1 := "data1", V2 := "read" },
            { Id := 2, Ptype := "g", V0 := "alice", V1 := "data2_admin" }],
         none) :=
  ((unconstrained_filter_not_guarded {} {} (List String) (fun s m => m ++ [s]) []
    [{ Id := 1, Ptype := "p", V0 := "alice", V1 := "data1", V2 := "read" },
     { Id := 2, Ptype := "g", V0 := "alice", V1 := "data2_admin" }] rfl).2.2
    rfl rfl rfl rfl rfl rfl).2

/-! ## C14: no check of the positional correspondence -/

/-- With enough new rules the loop of `UpdatePolicies` never reads out of
range: it is the updates of the pairs. -/
theorem updatePoliciesBody_eq (ptype : String) (newRules : List (List String)) :
    ∀ (oldRules : List (List String)) (i : Nat) (fs : List (Option StorageError)) (t : Table),
      i + oldRules.length ≤ newRules.length →
      updatePoliciesBody ptype newRules i fs oldRules t
        = some (updatePairs ptype fs (oldRules.zip (newRules.drop i)) t) := by
  intro oldRules
  induction oldRules with
  | nil => intro i fs t _; rfl
  | cons o rest ih =>
    intro i fs t h
    simp only [List.length_cons] at h
    have hi : i < newRules.length := by omega
    rw [List.drop_eq_getElem_cons hi]
    simp only [updatePoliciesBody, List.getElem?_eq_getElem hi, List.zip_cons_cons,
      updatePairs]
    cases updateWhere (fs.headD none) (genPolicyLine ptype newRules[i])
        [.raw (genWhereCondition (genPolicyLine ptype o)).1
          (genWhereCondition (genPolicyLine ptype o)).2] t with
    | error e => rfl
    | ok tx1 => exact ih (i + 1) fs.tail tx1 (by omega)

/-- The method `UpdatePolicies` with at least as many new rules as old rules:
the transaction over the updates of the pairs. -/
theorem UpdatePolicies_eq (fl : BatchFaults) (sec ptype : String)
    (oldRules newRules : List (List String)) (t : Table)
    (hlen : oldRules.length ≤ newRules.length) :
    UpdatePolicies fl sec ptype oldRules newRules t
      = some ((runInTx fl.tx ()
            (fun tx => ((), updatePairs ptype fl.stmts (oldRules.zip newRules) tx)) t).2.1,
          (runInTx fl.tx ()
            (fun tx => ((), updatePairs ptype fl.stmts (oldRules.zip newRules) tx)) t).2.2) := by
  unfold UpdatePolicies runInTx
  rw [updatePoliciesBody_eq ptype newRules oldRules 0 fl.stmts t (by omega), List.drop_zero]
  cases fl.tx.beginErr with
  | some e => rfl
  | none =>
    simp only
    rcases hu : updatePairs ptype fl.stmts (oldRules.zip newRules) t with e | t'
    · rfl
    · simp only
      cases fl.tx.commitErr with
      | some e => rfl
      | none => rfl

/-- C14, counterexample: `UpdatePolicies` does not check the lengths.  With
one old rule and two new rules the update of the first pair is executed, the
surplus new rule is ignored and no error is returned; with two old rules and
one new rule the first update runs and the read of `newRules[1]` is out of
range, a panic and not an error. -/
theorem update_policies_mismatch_not_rejected :
    UpdatePolicies {} "p" "p" [["alice", "data1", "read"]]
        [["alice", "data1", "write"], ["bob", "data2", "write"]]
        [{ Id := 1, Ptype := "p", V0 := "alice", V1 := "data1", V2 := "read" }]
      = some (none, [{ Id := 1, Ptype := "p", V0 := "alice", V1 := "data1", V2 := "write" }]) ∧
    updateWhere none (genPolicyLine "p" ["alice", "data1", "write"])
        [.raw (genWhereCondition (genPolicyLine "p" ["alice", "data1", "read"])).1
          (genWhereCondition (genPolicyLine "p" ["alice", "data1", "read"])).2]
        [{ Id := 1, Ptype := "p", V0 := "alice", V1 := "data1", V2 := "read" },
         { Id := 2, Ptype := "p", V0 := "bob", V1 := "data2", V2 := "read" }]
      = .ok [{ Id := 1, Ptype := "p", V0 := "alice", V1 := "data1", V2 := "write" },
             { Id := 2, Ptype := "p", V0 := "bob", V1 := "data2", V2 := "read" }] ∧
    UpdatePolicies {} "p" "p" [["alice", "data1", "read"], ["bob", "data2", "read"]]
        [["alice", "data1", "write"]]
        [{ Id := 1, Ptype := "p", V0 := "alice", V1 := "data1", V2 := "read" },
         { Id := 2, Ptype := "p", V0 := "bob", V1 := "data2", V2 := "read" }]
      = none := by
  refine ⟨by decide, by rfl, by decide⟩

/-- C14, amended: `UpdatePolicies` performs no check of the lengths.  For
every call with at least as many new rules as old rules it returns (no index
is out of range) and runs, in one transaction, one update per pair
`(oldRules[i], newRules[i])` with `i < len(oldRules)`; the new rules beyond
that are ignored, the call being the call with the first `len(oldRules)` new
rules; the error it returns is the error of the transaction, and with an
error the table is the table before the call. -/
theorem update_policies_pairwise (fl : BatchFaults) (sec ptype : String)
    (oldRules newRules : List (List String)) (t : Table)
    (hlen : oldRules.length ≤ newRules.length) :
    UpdatePolicies fl sec ptype oldRules newRules t
      = some ((runInTx fl.tx ()
            (fun tx => ((), updatePairs ptype fl.stmts (oldRules.zip newRules) tx)) t).2.1,
          (runInTx fl.tx ()
            (fun tx => ((), updatePairs ptype fl.stmts (oldRules.zip newRules) tx)) t).2.2) ∧
    UpdatePolicies fl sec ptype oldRules newRules t
      = UpdatePolicies fl sec ptype oldRules (newRules.take oldRules.length) t ∧
    (∀ err t', UpdatePolicies fl sec ptype oldRules newRules t = some (err, t') →
      err ≠ none → t' = t) := by
  have h1 := UpdatePolicies_eq fl sec ptype oldRules newRules t hlen
  have hzip : oldRules.zip (newRules.take oldRules.length) = oldRules.zip newRules := by
    have := List.zip_eq_zip_take_min oldRules newRules
    rw [this, Nat.min_eq_left hlen, List.take_length]
  have h2 := UpdatePolicies_eq fl sec ptype oldRules (newRules.take oldRules.length) t
    (by rw [List.length_take]; omega)
  rw [hzip] at h2
  refine ⟨h1, h1.trans h2.symm, ?_⟩
  intro err t' h herr
  rw [h1] at h
  injection h with h
  injection h with he ht
  rw [← ht]
  exact runInTx_rollback _ _ _ _ (by rw [he]; exact herr)

/-- Witness of `update_policies_pairwise`: two old rules, three new rules. -/
theorem update_policies_pairwise_witness :
    UpdatePolicies {} "p" "p" [["alice", "data1", "read"], ["bob", "data2", "read"]]
        [["alice", "data1", "write"], ["bob", "data2", "write"], ["carol", "data3", "read"]]
        [{ Id := 1, Ptype := "p", V0 := "alice", V1 := "data1", V2 := "read" },
         { Id := 2, Ptype := "p", V0 := "bob", V1 := "data2", V2 := "read" }]
      = UpdatePolicies {} "p" "p" [["alice", "data1", "read"], ["bob", "data2", "read"]]
        (List.take 2
          [["alice", "data1", "write"], ["bob", "data2", "write"], ["carol", "data3", "read"]])
        [{ Id := 1, Ptype := "p", V0 := "alice", V1 := "data1", V2 := "read" },
         { Id := 2, Ptype := "p", V0 := "bob", V1 := "data2", V2 := "read" }] ∧
    UpdatePolicies {} "p" "p" [["alice", "data1", "read"], ["bob", "data2", "read"]]
        [["alice", "data1", "write"], ["bob", "data2", "write"], ["carol", "data3", "read"]]
        [{ Id := 1, Ptype := "p", V0 := "alice", V1 := "data1", V2 := "read" },
         { Id := 2, Ptype := "p", V0 := "bob", V1 := "data2", V2 := "read" }]
      = some (none,
          [{ Id := 1, Ptype := "p", V0 := "alice", V1 := "data1", V2 := "write" },
           { Id := 2, Ptype := "p", V0 := "bob", V1 := "data2", V2 := "write" }]) :=
  ⟨(update_policies_pairwise {} "p" "p" [["alice", "data1", "read"], ["bob", "data2", "read"]]
      [["alice", "data1", "write"], ["bob", "data2", "write"], ["carol", "data3", "read"]]
      [{ Id := 1, Ptype := "p", V0 := "alice", V1 := "data1", V2 := "read" },
       { Id := 2, Ptype := "p", V0 := "bob", V1 := "data2", V2 := "read" }]
      (by decide)).2.1,
   by decide⟩

end BunAdapter
